import Mathlib

/-! Beap (bi-parental heap): a shallow embedding of `beap.hpp` and `detail/triangular.hpp`.

Conventions of the embedding.

* `size_type` is `int32_t`.  In the container operations it is modelled by `Int` with exact
  arithmetic (namespace `tri` for the index algebra): they are evaluated on buffers of a
  few dozen elements, where every index is far away from the 32-bit bounds.
* The index algebra of `detail/triangular.hpp` is given a second time in the namespace
  `tri32`, where the result of every arithmetic operation is reduced to `int32_t`
  (`tri32.wrap`, modulo `2^32`) and `isqrt` reports its `assert (val_ > 0)`.  The
  statements on every row or every size of a range are proved on `tri32`; inside those
  ranges the two readings agree (`nth_triangular32_eq`, `nth_triangular_root32_eq`,
  `span32_eq`), and outside them `tri32` shows what the stored values become.
* `ValueType` is `int` and `Compare` is `std::less` (the defaults used by the driver).
* The buffer `std::vector<value_type>` is a `List Int`.  Capacity (`reserve`,
  `shrink_to_fit`) has no influence on the stored values and is not modelled.
* Reading or writing the buffer outside `[0, size)`, `front`/`back` of an empty buffer, a
  failing `assert` and the end of a value-returning function reached without `return` have
  no defined result in C++; the embedding reports them as a `Fault`.
* Loops are functions with a step budget; a budget that runs out is the fault `Fault.fuel`,
  which never stands for a result of the code.
* The branch-hint macros (`BEAP_LIKELY`, `BEAP_UNLIKELY`, `BEAP_UNPREDICTABLE`) leave the
  value of their argument unchanged and are dropped.
-/

namespace tri

/-- Integer square root, `isqrt` of `triangular.hpp` (`std::sqrt` on `double`, truncated),
taken as the exact integer square root: the greatest `k` with `k * k ≤ val_`.  The source
asserts `val_ > 0`. -/
def isqrt (val_ : Int) : Int :=
  (Nat.findGreatest (fun k => k * k ≤ val_.toNat) val_.toNat : Nat)

/-- The function `nth_triangular_impl`: `r_ += 1; return r_ * (r_ - 1) / 2`, in exact
arithmetic; the `int32_t` reading is `tri32.nth_triangular_impl`. -/
def nth_triangular_impl (r_ : Int) : Int :=
  let r := r_ + 1
  (r * (r - 1)).tdiv 2

/-- The function `nth_triangular_root_impl`: `(isqrt (8 * n_) + 1) / 2`, in exact
arithmetic; the `int32_t` reading is `tri32.nth_triangular_root_impl`. -/
def nth_triangular_root_impl (n_ : Int) : Int :=
  (isqrt (8 * n_) + 1).tdiv 2

/-- The function `nth_triangular`: a `switch` with `case 0: return 0`, the cases `1 .. 63`
returning `nth_triangular_impl (n)`, and the same call after the `switch`. -/
def nth_triangular (r_ : Int) : Int :=
  if r_ = 0 then 0
  else if 1 ≤ r_ ∧ r_ ≤ 64 - 1 then nth_triangular_impl r_
  else nth_triangular_impl r_

/-- The function `nth_triangular_root`: a `switch` with `case 0: return 0`, the cases
`1 .. 64 * 64 - 1` returning `nth_triangular_root_impl (n)`, and the same call after it. -/
def nth_triangular_root (r_ : Int) : Int :=
  if r_ = 0 then 0
  else if 1 ≤ r_ ∧ r_ ≤ 64 * 64 - 1 then nth_triangular_root_impl r_
  else nth_triangular_root_impl r_

/-- The function `is_triangular`: `nth_triangular (nth_triangular_root (i_)) == i_`. -/
def is_triangular (i_ : Int) : Bool :=
  decide (nth_triangular (nth_triangular_root i_) = i_)

/-- The function `nth_triangular_floor`: `nth_triangular (nth_triangular_root (n_) + 0)`. -/
def nth_triangular_floor (n_ : Int) : Int :=
  nth_triangular (nth_triangular_root n_ + 0)

/-- The function `nth_triangular_ceil`: `nth_triangular (nth_triangular_root (n_) + 1)`. -/
def nth_triangular_ceil (n_ : Int) : Int :=
  nth_triangular (nth_triangular_root n_ + 1)

/-- The struct `basic_span_type`: `beg` and `end` (named `end_` here). -/
structure basic_span_type where
  beg : Int
  end_ : Int
  deriving DecidableEq, Repr

namespace basic_span_type

/-- The pre-increment `operator++`, in exact arithmetic; the `int32_t` reading is
`tri32.incr`. -/
def incr (s : basic_span_type) : basic_span_type :=
  let tmp := s.end_ + 1
  { beg := tmp, end_ := 2 * tmp - s.beg }

/-- The pre-decrement `operator--`, in exact arithmetic; the `int32_t` reading is
`tri32.decr`. -/
def decr (s : basic_span_type) : basic_span_type :=
  let tmp := 2 * s.beg - s.end_
  { beg := tmp, end_ := s.beg - 1 }

/-- The member `next`, in exact arithmetic; the `int32_t` reading is `tri32.next`. -/
def next (s : basic_span_type) : basic_span_type :=
  let tmp := s.end_ + 1
  { beg := tmp, end_ := 2 * tmp - s.beg }

/-- The member `prev`, in exact arithmetic; the `int32_t` reading is `tri32.prev`. -/
def prev (s : basic_span_type) : basic_span_type :=
  { beg := 2 * s.beg - s.end_, end_ := s.beg - 1 }

/-- The static member `span`, in exact arithmetic; the `int32_t` reading is `tri32.span`. -/
def span (lev_ : Int) : basic_span_type :=
  let beg := nth_triangular lev_
  { beg := beg, end_ := lev_ + beg }

end basic_span_type

end tri

open tri

/-- What the C++ code leaves undefined (or aborts on), plus the exhausted step budget. -/
inductive Fault where
  | out_of_range
  | assertion
  | no_return
  | fuel
  deriving DecidableEq, Repr

deriving instance DecidableEq for Except

namespace tri32

/-- The value of an arithmetic result as stored in `int32_t`: reduced modulo `2^32` into
`[-2^31, 2^31)`. -/
def wrap (x : Int) : Int := (x + 2147483648) % 4294967296 - 2147483648

/-- The function `isqrt`: `assert (val_ > 0)`, then the square root on `double`, truncated;
on the positive `int32_t` values it is the exact integer square root `tri.isqrt`. -/
def isqrt (val_ : Int) : Except Fault Int :=
  if val_ > 0 then .ok (tri.isqrt val_) else .error .assertion

/-- The function `nth_triangular_impl`: `r_ += 1; return r_ * (r_ - 1) / 2`, every result
stored in `int32_t`. -/
def nth_triangular_impl (r_ : Int) : Int :=
  let r := wrap (r_ + 1)
  (wrap (r * wrap (r - 1))).tdiv 2

/-- The function `nth_triangular_root_impl`: `(isqrt (8 * n_) + 1) / 2`, every result
stored in `int32_t`. -/
def nth_triangular_root_impl (n_ : Int) : Except Fault Int :=
  match isqrt (wrap (8 * n_)) with
  | .error e => .error e
  | .ok s => .ok ((wrap (s + 1)).tdiv 2)

/-- The function `nth_triangular`: `case 0: return 0`, the cases `1 .. 63` and the call
after the `switch` all return `nth_triangular_impl (r_)`. -/
def nth_triangular (r_ : Int) : Int :=
  if r_ = 0 then 0
  else if 1 ≤ r_ ∧ r_ ≤ 64 - 1 then nth_triangular_impl r_
  else nth_triangular_impl r_

/-- The function `nth_triangular_root`: `case 0: return 0`, the cases `1 .. 64 * 64 - 1`
and the call after the `switch` all return `nth_triangular_root_impl (r_)`. -/
def nth_triangular_root (r_ : Int) : Except Fault Int :=
  if r_ = 0 then .ok 0
  else if 1 ≤ r_ ∧ r_ ≤ 64 * 64 - 1 then nth_triangular_root_impl r_
  else nth_triangular_root_impl r_

/-- The function `is_triangular`: `nth_triangular (nth_triangular_root (i_)) == i_`. -/
def is_triangular (i_ : Int) : Except Fault Bool :=
  match nth_triangular_root i_ with
  | .error e => .error e
  | .ok k => .ok (decide (nth_triangular k = i_))

/-- The function `nth_triangular_floor`: `nth_triangular (nth_triangular_root (n_) + 0)`. -/
def nth_triangular_floor (n_ : Int) : Except Fault Int :=
  match nth_triangular_root n_ with
  | .error e => .error e
  | .ok k => .ok (nth_triangular (wrap (k + 0)))

/-- The function `nth_triangular_ceil`: `nth_triangular (nth_triangular_root (n_) + 1)`. -/
def nth_triangular_ceil (n_ : Int) : Except Fault Int :=
  match nth_triangular_root n_ with
  | .error e => .error e
  | .ok k => .ok (nth_triangular (wrap (k + 1)))

/-- The pre-increment `operator++`: `tmp = end + 1; end = 2 * tmp - beg; beg = tmp`. -/
def incr (s : basic_span_type) : basic_span_type :=
  let tmp := wrap (s.end_ + 1)
  { beg := tmp, end_ := wrap (wrap (2 * tmp) - s.beg) }

/-- The pre-decrement `operator--`: `tmp = 2 * beg - end; end = beg - 1; beg = tmp`. -/
def decr (s : basic_span_type) : basic_span_type :=
  let tmp := wrap (wrap (2 * s.beg) - s.end_)
  { beg := tmp, end_ := wrap (s.beg - 1) }

/-- The member `next`: `tmp = end + 1; return { tmp, 2 * tmp - beg }`. -/
def next (s : basic_span_type) : basic_span_type :=
  let tmp := wrap (s.end_ + 1)
  { beg := tmp, end_ := wrap (wrap (2 * tmp) - s.beg) }

/-- The member `prev`: `return { 2 * beg - end, beg - 1 }`. -/
def prev (s : basic_span_type) : basic_span_type :=
  { beg := wrap (wrap (2 * s.beg) - s.end_), end_ := wrap (s.beg - 1) }

/-- The static member `span`: `beg = nth_triangular (lev_); lev_ += beg;
return { beg, lev_ }`. -/
def span (lev_ : Int) : basic_span_type :=
  let beg := nth_triangular lev_
  { beg := beg, end_ := wrap (lev_ + beg) }

end tri32

/-- The comparator `std::less`. -/
def less (a b : Int) : Bool := decide (a < b)

namespace basic_value_type

/-- The member `operator<=>` of `basic_value_type`, for the comparator `Comp`:
`int (not (Comp () (r_.v, v))) - int (Comp () (v, r_.v))`. -/
def spaceship (Comp : Int → Int → Bool) (v r_ : Int) : Int :=
  (if !(Comp r_ v) then 1 else 0) - (if Comp v r_ then 1 else 0)

/-- The expression `a > b` on `value_type`; C++20 rewrites it to `(a <=> b) > 0`. -/
def gt (a b : Int) : Bool := decide (spaceship less a b > 0)

/-- The expression `a < b` on `value_type`; C++20 rewrites it to `(a <=> b) < 0`. -/
def lt (a b : Int) : Bool := decide (spaceship less a b < 0)

end basic_value_type

open basic_value_type

/-- The class `beap`: its members `data` and `end_span`. -/
structure beap where
  data : List Int
  end_span : basic_span_type
  deriving DecidableEq, Repr

namespace beap

/-- The default constructor: an empty buffer and `end_span = { 0, 0 }`. -/
def empty : beap := { data := [], end_span := { beg := 0, end_ := 0 } }

/-- The range constructor: `data (b_, e_)` and
`end_span (span (nth_triangular_root (size) - 1))`. -/
def from_range (xs : List Int) : beap :=
  { data := xs
    end_span := basic_span_type.span (nth_triangular_root (xs.length : Int) - 1) }

/-- The range constructor with the `int32_t` index algebra: `data (b_, e_)` and
`end_span (span (nth_triangular_root (static_cast<size_type> (data.size ())) - 1))`. -/
def from_range32 (xs : List Int) : Except Fault beap :=
  (tri32.nth_triangular_root (tri32.wrap (xs.length : Int))).map
    (fun k => { data := xs, end_span := tri32.span (tri32.wrap (k - 1)) })

/-- The member `size` (and `length`). -/
def size (b : beap) : Int := (b.data.length : Int)

/-- The accessor `refof (i_)` (and `data[ i ]`) as a read: defined inside `[0, size)` only. -/
def refof (data : List Int) (i_ : Int) : Except Fault Int :=
  if i_ < 0 then .error .out_of_range
  else
    match data[i_.toNat]? with
    | some x => .ok x
    | none => .error .out_of_range

/-- The call `std::swap (refof (i_), refof (j_))` where `x` and `y` are the values read
at `i_` and `j_`. -/
def swap_at (data : List Int) (i_ j_ : Int) (x y : Int) : List Int :=
  (data.set i_.toNat y).set j_.toNat x

/-- The loop of `search`, with `s`, `i` and `h` the loop variables. -/
def search_loop (data : List Int) (end_span : basic_span_type) (v : Int) :
    Nat → basic_span_type → Int → Int → Except Fault basic_span_type
  | 0, _, _, _ => .error .fuel
  | fuel + 1, s, i, h =>
    let beap_height := end_span.end_ - end_span.beg
    let len : Int := (data.length : Int)
    match refof data i with
    | .error e => .error e
    | .ok d =>
      let c := spaceship less v d
      if c = -1 then
        if i = len - 1 then search_loop data end_span v fuel s.decr (i - h) (h - 1)
        else if i + h + 2 < len then search_loop data end_span v fuel s.incr (i + h + 2) (h + 1)
        else if i = s.end_ - 1 then .ok { beg := end_span.end_, end_ := beap_height }
        else search_loop data end_span v fuel s (i + 1) h
      else if c = 1 then
        if i = s.end_ then .ok { beg := end_span.end_, end_ := beap_height }
        else search_loop data end_span v fuel s.decr (i - h) (h - 1)
      else .ok { beg := i, end_ := h }

/-- The member `search`: the pair `{ index, row }`, or `{ end_span.end, beap_height }`. -/
def search (fuel : Nat) (b : beap) (v : Int) : Except Fault basic_span_type :=
  let s := b.end_span
  search_loop b.data b.end_span v fuel s (s.beg + 1) (s.end_ - s.beg)

/-- The member `find`: `search (v_).beg`. -/
def find (fuel : Nat) (b : beap) (v_ : Int) : Except Fault Int :=
  (search fuel b v_).map (fun s => s.beg)

/-- The first condition of `bubble_up`:
`l and refof (i_) > refof (l) and (not r or refof (l) < refof (r))`, read left to right. -/
def up_left (data : List Int) (i_ l r : Int) : Except Fault Bool :=
  if l = 0 then .ok false
  else do
    let xi ← refof data i_
    let xl ← refof data l
    if gt xi xl then
      if r = 0 then pure true
      else do
        let xr ← refof data r
        pure (lt xl xr)
    else pure false

/-- The second condition of `bubble_up`: `r and refof (i_) > refof (r)`. -/
def up_right (data : List Int) (i_ r : Int) : Except Fault Bool :=
  if r = 0 then .ok false
  else do
    let xi ← refof data i_
    let xr ← refof data r
    pure (gt xi xr)

/-- The loop of `bubble_up`, with `s`, `i_` and `h_` the loop variables; the result is the
buffer and the returned index. -/
def bubble_up_loop : Nat → List Int → basic_span_type → Int → Int →
    Except Fault (List Int × Int)
  | 0, data, _, i_, h_ =>
    if h_ = 0 then (if i_ = 0 then .ok (data, i_) else .error .assertion)
    else .error .fuel
  | fuel + 1, data, s, i_, h_ =>
    if h_ = 0 then (if i_ = 0 then .ok (data, i_) else .error .assertion)
    else
      let p := s.prev
      let d := i_ - s.beg
      let l := if i_ ≠ s.beg then p.beg + d - 1 else 0
      let r := if i_ ≠ s.end_ then p.beg + d else 0
      match up_left data i_ l r with
      | .error e => .error e
      | .ok true =>
        match refof data i_, refof data l with
        | .ok x, .ok y => bubble_up_loop fuel (swap_at data i_ l x y) p l (h_ - 1)
        | _, _ => .error .out_of_range
      | .ok false =>
        match up_right data i_ r with
        | .error e => .error e
        | .ok true =>
          match refof data i_, refof data r with
          | .ok x, .ok y => bubble_up_loop fuel (swap_at data i_ r x y) p r (h_ - 1)
          | _, _ => .error .out_of_range
        | .ok false => .ok (data, i_)

/-- The member `bubble_up (i_, h_)`; it starts from `s = end_span`. -/
def bubble_up (fuel : Nat) (data : List Int) (end_span : basic_span_type) (i_ h_ : Int) :
    Except Fault (List Int × Int) :=
  bubble_up_loop fuel data end_span i_ h_

/-- The first condition of `bubble_down`:
`l and refof (i_) < refof (l) and (not r or refof (l) > refof (r))`. -/
def down_left (data : List Int) (i_ l r : Int) : Except Fault Bool :=
  if l = 0 then .ok false
  else do
    let xi ← refof data i_
    let xl ← refof data l
    if lt xi xl then
      if r = 0 then pure true
      else do
        let xr ← refof data r
        pure (gt xl xr)
    else pure false

/-- The second condition of `bubble_down`: `r and refof (i_) < refof (r)`. -/
def down_right (data : List Int) (i_ r : Int) : Except Fault Bool :=
  if r = 0 then .ok false
  else do
    let xi ← refof data i_
    let xr ← refof data r
    pure (lt xi xr)

/-- The loop of `bubble_down`, with `s`, `i_` and `h_` the loop variables and `h_1` the
constant `end_span.end - end_span.beg - 1`. -/
def bubble_down_loop (h_1 : Int) : Nat → List Int → basic_span_type → Int → Int →
    Except Fault (List Int × Int)
  | 0, data, _, i_, h_ => if h_ < h_1 then .error .fuel else .ok (data, i_)
  | fuel + 1, data, s, i_, h_ =>
    if h_ < h_1 then
      let len : Int := (data.length : Int)
      let c := s.next
      let l0 := c.beg + i_ - s.beg
      let l := if l0 < len then l0 else 0
      let r := if l0 < len then (if l0 + 1 ≥ len then 0 else l0 + 1) else 0
      match down_left data i_ l r with
      | .error e => .error e
      | .ok true =>
        match refof data i_, refof data l with
        | .ok x, .ok y => bubble_down_loop h_1 fuel (swap_at data i_ l x y) c l (h_ + 1)
        | _, _ => .error .out_of_range
      | .ok false =>
        match down_right data i_ r with
        | .error e => .error e
        | .ok true =>
          match refof data i_, refof data r with
          | .ok x, .ok y => bubble_down_loop h_1 fuel (swap_at data i_ r x y) c r (h_ + 1)
          | _, _ => .error .out_of_range
        | .ok false => .ok (data, i_)
    else .ok (data, i_)

/-- The member `bubble_down (i_, h_)`; it starts from `s = end_span`. -/
def bubble_down (fuel : Nat) (data : List Int) (end_span : basic_span_type) (i_ h_ : Int) :
    Except Fault (List Int × Int) :=
  bubble_down_loop (end_span.end_ - end_span.beg - 1) fuel data end_span i_ h_

/-- The member `pop_data`: the last element and the buffer without it. -/
def pop_data (data : List Int) : Except Fault (Int × List Int) :=
  match data.getLast? with
  | some x => .ok (x, data.dropLast)
  | none => .error .out_of_range

/-- The assignment `refof (i_) = x` as a write: defined inside `[0, size)` only. -/
def assign (data : List Int) (i_ : Int) (x : Int) : Except Fault (List Int) :=
  if i_ < 0 then .error .out_of_range
  else if i_.toNat < data.length then .ok (data.set i_.toNat x)
  else .error .out_of_range

/-- The member `erase_impl (i_, h_)`. -/
def erase_impl (fuel : Nat) (b : beap) (i_ h_ : Int) : Except Fault beap :=
  let len := b.size
  let end_span := if len = b.end_span.beg then b.end_span.decr else b.end_span
  if i_ = len - 1 then .error .assertion
  else do
    let (x, data1) ← pop_data b.data
    let data2 ← assign data1 i_ x
    let (data3, i) ← bubble_down fuel data2 end_span i_ h_
    if i = i_ then do
      let (data4, _) ← bubble_up fuel data3 end_span i_ h_
      pure { data := data4, end_span := end_span }
    else pure { data := data3, end_span := end_span }

/-- The member `emplace_impl (i_, v)`: `emplace_back`, then
`bubble_up (i_, end_span.end - end_span.beg)`. -/
def emplace_impl (fuel : Nat) (b : beap) (i_ : Int) (v : Int) : Except Fault (beap × Int) := do
  let data1 := b.data ++ [v]
  let (data2, r) ← bubble_up fuel data1 b.end_span i_ (b.end_span.end_ - b.end_span.beg)
  pure ({ data := data2, end_span := b.end_span }, r)

/-- The member `emplace (v)`. -/
def emplace (fuel : Nat) (b : beap) (v : Int) : Except Fault (beap × Int) :=
  let i := b.size
  let end_span := if i = b.end_span.end_ then b.end_span.incr else b.end_span
  emplace_impl fuel { data := b.data, end_span := end_span } i v

/-- The member `insert (v_)`: `emplace (value_type { v_ })`. -/
def insert (fuel : Nat) (b : beap) (v_ : Int) : Except Fault (beap × Int) :=
  emplace fuel b v_

/-- The member `erase (v_)`. -/
def erase (fuel : Nat) (b : beap) (v_ : Int) : Except Fault beap := do
  let s ← search fuel b v_
  if s.beg = b.end_span.end_ then pure b
  else erase_impl fuel b s.beg s.end_

/-- The member `erase_by_index (i_)`. -/
def erase_by_index (fuel : Nat) (b : beap) (i_ : Int) : Except Fault beap :=
  if i_ = b.end_span.end_ then .ok b
  else erase_impl fuel b i_ (nth_triangular_root i_)

/-- The member `top`: `data.front ()`. -/
def top (b : beap) : Except Fault Int :=
  match b.data.head? with
  | some x => .ok x
  | none => .error .out_of_range

/-- The member `pop_beap`: the value `data.front ().v` is returned and the guard
`after_exit_erase_top` then runs `erase_impl (0, 1)`. -/
def pop_beap (fuel : Nat) (b : beap) : Except Fault (beap × Int) := do
  let x ← top b
  let b1 ← erase_impl fuel b 0 1
  pure (b1, x)

/-- The static member `make_baep`, its loop
`while (b != e) emplace_impl (c++, std::move (*b))` with `b = data.begin () + 1` and
`e = data.end ()` taken before the loop: `b` is never advanced, so the test compares the
position `1` with the position `e` of the old end in every round. -/
def make_baep_loop (e : Int) : Nat → beap → Int → Except Fault beap
  | 0, b, _ => if (1 : Int) ≠ e then .error .fuel else .ok b
  | fuel + 1, b, c =>
    if (1 : Int) ≠ e then
      match refof b.data 1 with
      | .error err => .error err
      | .ok x =>
        match emplace_impl (fuel + 1) b c x with
        | .error err => .error err
        | .ok (b1, _) => make_baep_loop e fuel b1 (c + 1)
    else .ok b

/-- The static member `make_baep`: `end_span = span (0)`, `c = 1`, then the loop. -/
def make_baep (fuel : Nat) (b : beap) : Except Fault beap :=
  make_baep_loop (b.data.length : Int) fuel
    { data := b.data, end_span := basic_span_type.span 0 } 1

/-- The calls `insert (v)` for the values of a sequence, one at a time, left to right. -/
def insert_all (fuel : Nat) : beap → List Int → Except Fault beap
  | b, [] => .ok b
  | b, v :: vs =>
    match insert fuel b v with
    | .error e => .error e
    | .ok (b1, _) => insert_all fuel b1 vs

/-- The calls `pop_beap ()` repeated until the buffer is empty (at most `n` calls); the
result is the sequence of the returned values. -/
def pop_all (fuel : Nat) : Nat → beap → Except Fault (List Int)
  | 0, b => if b.data = [] then .ok [] else .error .fuel
  | n + 1, b =>
    if b.data = [] then .ok []
    else
      match pop_beap fuel b with
      | .error e => .error e
      | .ok (b1, x) => (pop_all fuel n b1).map (fun xs => x :: xs)

/-- The round trip of the specification: all values are inserted into a default-constructed
beap, which is then popped until it is empty. -/
def insert_then_pop (fuel : Nat) (xs : List Int) : Except Fault (List Int) :=
  match insert_all fuel empty xs with
  | .error e => .error e
  | .ok b => pop_all fuel b.data.length b

/-- The member `contains (value_type const &)`: `find (v_) != end_span.end`. -/
def contains (fuel : Nat) (b : beap) (v_ : Int) : Except Fault Bool :=
  (find fuel b v_).map (fun i => decide (i ≠ b.end_span.end_))

/-- The member `contains (ValueType const &)`: `return search (v_).beg`, the index
converted to `bool`. -/
def contains_ValueType (fuel : Nat) (b : beap) (v_ : Int) : Except Fault Bool :=
  (search fuel b v_).map (fun s => decide (s.beg ≠ 0))

/-- The loop of `bottom`, with `min` and `i` the loop variables; the result is the final
value of `min`. -/
def bottom_loop (data : List Int) : Nat → Int → Int → Except Fault Int
  | 0, min, i => if i < (data.length : Int) then .error .fuel else .ok min
  | fuel + 1, min, i =>
    if i < (data.length : Int) then
      match refof data i, refof data min with
      | .ok x, .ok y => bottom_loop data fuel (if lt x y then i else min) (i + 1)
      | _, _ => .error .out_of_range
    else .ok min

/-- The member `bottom`: the loop starts with `min = end_span.beg` and `i = min + 1`; the
function body ends after the loop, without a `return` statement. -/
def bottom (fuel : Nat) (b : beap) : Except Fault Int :=
  match bottom_loop b.data fuel b.end_span.beg (b.end_span.beg + 1) with
  | .error e => .error e
  | .ok _ => .error .no_return

/-- The inner loop of the static `is_beap_untill`, with `lev`, `l_p`, `l_i`, `r_p` and
`r_i` the loop variables; `some i` is the early `return b_ + i`. -/
def is_beap_untill_inner (data : List Int) :
    Nat → Int → Int → Int → Int → Int → Except Fault (Option Int)
  | 0, _, _, l_i, _, r_i =>
    if l_i < (data.length : Int) ∧ r_i < (data.length : Int) then .error .fuel else .ok none
  | fuel + 1, lev, l_p, l_i, r_p, r_i =>
    if l_i < (data.length : Int) ∧ r_i < (data.length : Int) then
      match refof data l_i, refof data l_p with
      | .ok a, .ok c =>
        if !(less a c) then .ok (some l_i)
        else
          match refof data r_i, refof data r_p with
          | .ok a, .ok c =>
            if !(less a c) then .ok (some r_i)
            else
              is_beap_untill_inner data fuel (lev + 1) l_i (l_i + (lev + 1 + 1)) r_i
                (r_i + ((lev + 1 + 2) - 2))
          | _, _ => .error .out_of_range
      | _, _ => .error .out_of_range
    else .ok none

/-- The outer loop of the static `is_beap_untill`, with `base_l` and `base_i` the loop
variables; `n` is the step budget handed to the inner loop. -/
def is_beap_untill_outer (data : List Int) (n : Nat) : Nat → Int → Int → Except Fault Int
  | 0, _, base_i => if base_i < (data.length : Int) then .error .fuel else .ok data.length
  | fuel + 1, base_l, base_i =>
    if base_i < (data.length : Int) then
      let lev := base_l + 1
      let l_p := base_i - lev + 1
      let l_i := l_p + lev + 1
      let r_p := base_i
      let r_i := r_p + (lev + 2) - 2
      match is_beap_untill_inner data n lev l_p l_i r_p r_i with
      | .error e => .error e
      | .ok (some i) => .ok i
      | .ok none => is_beap_untill_outer data n fuel (base_l + 1) (base_i + (base_l + 1 + 1))
    else .ok data.length

/-- The static member `is_beap_untill (b_, e_)` on the sequence `data`; the result is the
offset of the returned iterator from `b_`, and `e_` is the offset `size`. -/
def is_beap_untill (fuel : Nat) (data : List Int) : Except Fault Int :=
  is_beap_untill_outer data fuel fuel 0 (nth_triangular 0)

/-- The static member `is_beap (b_, e_)`: `is_beap_untill (b_, e_) == e_`. -/
def is_beap (fuel : Nat) (data : List Int) : Except Fault Bool :=
  (is_beap_untill fuel data).map (fun i => decide (i = (data.length : Int)))

/-- The member `clear`: `data.clear ()`; `end_span` is not touched. -/
def clear (b : beap) : beap :=
  { data := [], end_span := b.end_span }

/-- The member `swap (rhs_)`: `std::swap (data, rhs_.data)`; the two `end_span` members are
not touched.  The result is the pair of `*this` and `rhs_` after the call. -/
def swap (b rhs_ : beap) : beap × beap :=
  ({ data := rhs_.data, end_span := b.end_span },
   { data := b.data, end_span := rhs_.end_span })

end beap

/-! ## The order invariant of the specification -/

/-- The row of the linear index `i`: the greatest `k` with `T (k) ≤ i`. -/
def row_of (i : Nat) : Nat := Nat.findGreatest (fun k => k * (k + 1) / 2 ≤ i) i

/-- The parents of the linear index `i` (row `k`, column `d`): the left parent at
`T (k - 1) + d - 1` when `d > 0` and the right parent at `T (k - 1) + d` when `d < k`. -/
def parents (i : Nat) : List Nat :=
  let k := row_of i
  let d := i - k * (k + 1) / 2
  (if 0 < d then [(k - 1) * k / 2 + d - 1] else []) ++
    (if d < k then [(k - 1) * k / 2 + d] else [])

/-- The max-beap order invariant: every element is `≤` each of its existing parents. -/
def order_invariant (data : List Int) : Bool :=
  (List.range data.length).all fun i =>
    (parents i).all fun p => decide (data.getD i 0 ≤ data.getD p 0)

/-- The 24 values of the driver (`data` in `main.cpp`), scenario S1. -/
def S1 : List Int :=
  [72, 68, 63, 44, 62, 55, 33, 22, 32, 51, 13, 18, 21, 19, 31, 11, 12, 14, 17, 9, 13, 3, 2, 10]

/-- The table `ref_span` of the driver (`main.cpp`): the expected `{ beg, end }` of the rows
`0 .. 63`. -/
def ref_span : List basic_span_type :=
  [⟨0, 0⟩, ⟨1, 2⟩, ⟨3, 5⟩, ⟨6, 9⟩, ⟨10, 14⟩, ⟨15, 20⟩,
   ⟨21, 27⟩, ⟨28, 35⟩, ⟨36, 44⟩, ⟨45, 54⟩, ⟨55, 65⟩, ⟨66, 77⟩,
   ⟨78, 90⟩, ⟨91, 104⟩, ⟨105, 119⟩, ⟨120, 135⟩, ⟨136, 152⟩, ⟨153, 170⟩,
   ⟨171, 189⟩, ⟨190, 209⟩, ⟨210, 230⟩, ⟨231, 252⟩, ⟨253, 275⟩, ⟨276, 299⟩,
   ⟨300, 324⟩, ⟨325, 350⟩, ⟨351, 377⟩, ⟨378, 405⟩, ⟨406, 434⟩, ⟨435, 464⟩,
   ⟨465, 495⟩, ⟨496, 527⟩, ⟨528, 560⟩, ⟨561, 594⟩, ⟨595, 629⟩, ⟨630, 665⟩,
   ⟨666, 702⟩, ⟨703, 740⟩, ⟨741, 779⟩, ⟨780, 819⟩, ⟨820, 860⟩, ⟨861, 902⟩,
   ⟨903, 945⟩, ⟨946, 989⟩, ⟨990, 1034⟩, ⟨1035, 1080⟩, ⟨1081, 1127⟩, ⟨1128, 1175⟩,
   ⟨1176, 1224⟩, ⟨1225, 1274⟩, ⟨1275, 1325⟩, ⟨1326, 1377⟩, ⟨1378, 1430⟩, ⟨1431, 1484⟩,
   ⟨1485, 1539⟩, ⟨1540, 1595⟩, ⟨1596, 1652⟩, ⟨1653, 1710⟩, ⟨1711, 1769⟩, ⟨1770, 1829⟩,
   ⟨1830, 1890⟩, ⟨1891, 1952⟩, ⟨1953, 2015⟩, ⟨2016, 2079⟩]

/-- A step budget that suffices for the loop of `search` started at index `i` in row `h`. -/
def search_budget (len i h : Int) : Nat :=
  if 0 ≤ h then h.toNat + len.toNat + 2 else (len - i).toNat + 1

open beap

/-! ## The three-way comparison as written -/

/-- With `std::less`, `operator<=>` yields `1` for equal operands and `0` otherwise. -/
theorem spaceship_less_eq_ite (v r : Int) :
    spaceship less v r = if v = r then 1 else 0 := by
  unfold spaceship less
  rcases lt_trichotomy v r with h | h | h
  · have h1 : ¬ r < v := not_lt.mpr h.le
    have h2 : v ≠ r := ne_of_lt h
    simp [h, h1, h2]
  · subst h
    simp
  · have h1 : ¬ v < r := not_lt.mpr h.le
    have h2 : v ≠ r := ne_of_gt h
    simp [h, h1, h2]

/-- The rewritten `a > b` on `value_type` holds exactly for equal operands. -/
theorem gt_eq_true_iff (a b : Int) : gt a b = true ↔ a = b := by
  unfold gt
  rw [spaceship_less_eq_ite]
  by_cases h : a = b <;> simp [h]

/-- The rewritten `a < b` on `value_type` never holds. -/
theorem lt_eq_false (a b : Int) : lt a b = false := by
  unfold lt
  rw [spaceship_less_eq_ite]
  by_cases h : a = b <;> simp [h]

/-! ## What `bubble_up`, `insert` and `search` do on every beap -/

theorem set_eq_self_of_getElem? (l : List Int) (n : Nat) (x : Int) (h : l[n]? = some x) :
    l.set n x = l := by
  induction l generalizing n with
  | nil => simp at h
  | cons a t ih =>
    cases n with
    | zero =>
      simp at h
      simp [h]
    | succ m =>
      simp at h
      simp [ih m h]

theorem refof_eq_ok_iff (data : List Int) (i x : Int) :
    refof data i = .ok x ↔ 0 ≤ i ∧ data[i.toNat]? = some x := by
  unfold refof
  by_cases h : i < 0
  · simp [h]
  · simp only [h, if_false]
    have h0 : 0 ≤ i := not_lt.mp h
    cases hd : data[i.toNat]? with
    | none => simp
    | some y => simp [h0]

theorem swap_at_same (data : List Int) (i j x : Int)
    (hi : refof data i = .ok x) (hj : refof data j = .ok x) :
    swap_at data i j x x = data := by
  rw [refof_eq_ok_iff] at hi hj
  unfold swap_at
  rw [set_eq_self_of_getElem? data i.toNat x hi.2, set_eq_self_of_getElem? data j.toNat x hj.2]

theorem up_left_true (data : List Int) (i l r v : Int) (hi : refof data i = .ok v)
    (h : up_left data i l r = .ok true) : refof data l = .ok v := by
  unfold up_left at h
  by_cases hl : l = 0
  · simp [hl] at h
  · simp only [hl, if_false, hi] at h
    cases hy : refof data l with
    | error e => simp [hy, bind, Except.bind] at h
    | ok y =>
      simp only [hy, bind, Except.bind] at h
      by_cases hg : gt v y = true
      · rw [gt_eq_true_iff] at hg
        rw [hg]
      · simp [hg, pure, Except.pure] at h

theorem up_right_true (data : List Int) (i r v : Int) (hi : refof data i = .ok v)
    (h : up_right data i r = .ok true) : refof data r = .ok v := by
  unfold up_right at h
  by_cases hr : r = 0
  · simp [hr] at h
  · simp only [hr, if_false, hi] at h
    cases hy : refof data r with
    | error e => simp [hy, bind, Except.bind] at h
    | ok y =>
      simp only [hy, bind, Except.bind, pure, Except.pure] at h
      have hg : gt v y = true := by simpa using h
      rw [gt_eq_true_iff] at hg
      rw [hg]

theorem bubble_up_loop_ok (fuel : Nat) (data : List Int) (v : Int) :
    ∀ (s : basic_span_type) (i h : Int) (data1 : List Int) (r : Int),
      refof data i = .ok v → bubble_up_loop fuel data s i h = .ok (data1, r) →
      data1 = data ∧ refof data r = .ok v := by
  induction fuel with
  | zero =>
    intro s i h data1 r hi hr
    unfold bubble_up_loop at hr
    by_cases h0 : h = 0
    · by_cases i0 : i = 0
      · simp [h0, i0] at hr
        subst i0
        exact ⟨hr.1.symm, hr.2 ▸ hi⟩
      · simp [h0, i0] at hr
    · simp [h0] at hr
  | succ n ih =>
    intro s i h data1 r hi hr
    unfold bubble_up_loop at hr
    by_cases h0 : h = 0
    · by_cases i0 : i = 0
      · simp [h0, i0] at hr
        subst i0
        exact ⟨hr.1.symm, hr.2 ▸ hi⟩
      · simp [h0, i0] at hr
    · rw [if_neg h0] at hr
      dsimp only at hr
      generalize (if i ≠ s.beg then s.prev.beg + (i - s.beg) - 1 else 0) = l at hr
      generalize (if i ≠ s.end_ then s.prev.beg + (i - s.beg) else 0) = q at hr
      cases hul : up_left data i l q with
      | error e => simp [hul] at hr
      | ok b =>
        cases b with
        | true =>
          have hl := up_left_true data i _ _ v hi hul
          simp only [hul, hi, hl] at hr
          rw [swap_at_same data i _ v hi hl] at hr
          exact ih _ _ _ _ _ hl hr
        | false =>
          simp only [hul] at hr
          cases hur : up_right data i q with
          | error e => simp [hur] at hr
          | ok b =>
            cases b with
            | true =>
              have hrr := up_right_true data i _ v hi hur
              simp only [hur, hi, hrr] at hr
              rw [swap_at_same data i _ v hi hrr] at hr
              exact ih _ _ _ _ _ hrr hr
            | false =>
              simp only [hur] at hr
              simp at hr
              exact ⟨hr.1.symm, hr.2 ▸ hi⟩

theorem refof_append_size (data : List Int) (v : Int) :
    refof (data ++ [v]) (data.length : Int) = .ok v := by
  rw [refof_eq_ok_iff]
  refine ⟨Int.natCast_nonneg _, ?_⟩
  simp

/-- Whenever `insert (v)` returns, the buffer is the old buffer with `v` appended and the
returned index is inside the buffer and holds `v`: `bubble_up` swaps equal values only. -/
theorem insert_ok_appends (fuel : Nat) (b b1 : beap) (v r : Int)
    (h : insert fuel b v = .ok (b1, r)) :
    b1.data = b.data ++ [v] ∧ b1.size = b.size + 1 ∧ 0 ≤ r ∧ r < b1.size ∧
      b1.data[r.toNat]? = some v := by
  unfold beap.insert emplace emplace_impl bubble_up at h
  dsimp only at h
  generalize (if b.size = b.end_span.end_ then b.end_span.incr else b.end_span) = es at h
  cases hb : bubble_up_loop fuel (b.data ++ [v]) es b.size (es.end_ - es.beg) with
  | error e => simp [hb, bind, Except.bind] at h
  | ok p =>
    obtain ⟨data2, q⟩ := p
    simp only [hb, bind, Except.bind, pure, Except.pure] at h
    have hq := bubble_up_loop_ok fuel (b.data ++ [v]) v es b.size _ data2 q
      (refof_append_size b.data v) hb
    injection h with h
    injection h with h1 h2
    subst h1 h2
    obtain ⟨hd, hr⟩ := hq
    subst hd
    rw [refof_eq_ok_iff] at hr
    refine ⟨rfl, by simp [size], hr.1, ?_, hr.2⟩
    have hlt : q.toNat < (b.data ++ [v]).length := by
      by_contra hc
      rw [List.getElem?_eq_none (not_lt.mp hc)] at hr
      exact absurd hr.2 (by simp)
    show q < ((b.data ++ [v]).length : Int)
    omega

theorem insert_ok_appends_witness :
    insert 1 (from_range S1) 54 = .ok (⟨S1 ++ [54], ⟨21, 27⟩⟩, 24) ∧
    ((⟨S1 ++ [54], ⟨21, 27⟩⟩ : beap).data = (from_range S1).data ++ [54] ∧
      (⟨S1 ++ [54], ⟨21, 27⟩⟩ : beap).size = (from_range S1).size + 1 ∧ (0 : Int) ≤ 24 ∧
      (24 : Int) < (⟨S1 ++ [54], ⟨21, 27⟩⟩ : beap).size ∧
      (⟨S1 ++ [54], ⟨21, 27⟩⟩ : beap).data[(24 : Int).toNat]? = some 54) :=
  ⟨rfl, insert_ok_appends 1 (from_range S1) ⟨S1 ++ [54], ⟨21, 27⟩⟩ 54 24 rfl⟩

/-- Whenever the first probe `data[ end_span.beg + 1 ]` exists and differs from `v`,
`search (v)` returns that probe as the place of `v`. -/
theorem search_of_probe_ne (fuel : Nat) (b : beap) (v d : Int)
    (hd : refof b.data (b.end_span.beg + 1) = .ok d) (hne : v ≠ d) :
    search (fuel + 1) b v =
      .ok ⟨b.end_span.beg + 1, b.end_span.end_ - b.end_span.beg⟩ := by
  unfold search search_loop
  simp [hd, spaceship_less_eq_ite, hne]

theorem search_of_probe_ne_witness :
    refof (from_range S1).data ((from_range S1).end_span.beg + 1) = .ok 2 ∧
    search 1 (from_range S1) 999 =
      .ok ⟨(from_range S1).end_span.beg + 1,
        (from_range S1).end_span.end_ - (from_range S1).end_span.beg⟩ :=
  ⟨by decide, search_of_probe_ne 0 (from_range S1) 999 2 (by decide) (by decide)⟩

/-! ## The claims, evaluated on the code -/

/-- Claim C1 (find correctness), evaluated on the beap of scenario S1, which satisfies the
order invariant: `find (33)` returns index 22, whose element is 2 and not the stored 33;
`find (100)` and `find (-5)`, values that are not stored, return the same index 22 and not
the sentinel `end_span.end = 27`. -/
theorem find_S1_returns_first_probe :
    order_invariant S1 = true ∧ (from_range S1).end_span = ⟨21, 27⟩ ∧
    (33 : Int) ∈ S1 ∧ (100 : Int) ∉ S1 ∧ (-5 : Int) ∉ S1 ∧ S1[22]? = some 2 ∧
    (∀ fuel : Nat, find (fuel + 1) (from_range S1) 33 = .ok 22) ∧
    (∀ fuel : Nat, find (fuel + 1) (from_range S1) 100 = .ok 22) ∧
    (∀ fuel : Nat, find (fuel + 1) (from_range S1) (-5) = .ok 22) := by
  refine ⟨by decide, by decide, by decide, by decide, by decide, by decide, ?_, ?_, ?_⟩ <;>
    intro fuel <;> rfl

/-- Claim C2 (the order invariant is preserved), evaluated on the claim's own witness: the
beap of S1 satisfies the order invariant, `insert (54)` leaves 54 at the appended slot 24,
below its parents 14 and 17, and the invariant no longer holds. -/
theorem insert_S1_54_breaks_order_invariant :
    order_invariant (from_range S1).data = true ∧
    (∀ fuel : Nat, insert (fuel + 1) (from_range S1) 54 =
      .ok (⟨S1 ++ [54], ⟨21, 27⟩⟩, 24)) ∧
    parents 24 = [17, 18] ∧ S1[17]? = some 14 ∧ S1[18]? = some 17 ∧
    order_invariant (S1 ++ [54]) = false := by
  refine ⟨by decide, ?_, by decide, by decide, by decide, by decide⟩
  intro fuel
  rfl

/-- Claim C3 (top is the maximum after inserts into a default-constructed beap), evaluated
on the code: the first `insert` into the default-constructed beap advances `end_span` to
`{ 1, 2 }` and `bubble_up (0, 1)` reads `refof (-2)`, so no non-empty sequence of inserts
produces a beap whose `top ()` could be read.  Where `insert` does return, the new value
stays in the appended slot: on the beap constructed from `[3, 2, 1]`, `insert (5)` leaves
`top ()` at 3. -/
theorem insert_all_empty_faults :
    (∀ (fuel : Nat) (v : Int) (vs : List Int),
      insert_all (fuel + 1) beap.empty (v :: vs) = .error .out_of_range) ∧
    (∀ fuel : Nat, ∃ b : beap, ∃ r : Int,
      insert (fuel + 1) (from_range [3, 2, 1]) 5 = .ok (b, r) ∧
      b.data = [3, 2, 1, 5] ∧ top b = .ok 3) := by
  refine ⟨?_, ?_⟩
  · intro fuel v vs
    rfl
  · intro fuel
    exact ⟨⟨[3, 2, 1, 5], ⟨1, 2⟩⟩, 3, rfl, rfl, rfl⟩

/-- Claim C4 (inserting and then popping yields the values in descending order), evaluated
on the claim's witness: the round trip on `[3,1,4,1,5,9,2,6,5,3,5]` stops in the first
`insert` with a read outside the buffer, and `pop_beap` on the beap constructed from the
expected output, which satisfies the order invariant, reads outside the buffer as well. -/
theorem insert_then_pop_S6_faults :
    (∀ fuel : Nat,
      insert_then_pop (fuel + 1) [3, 1, 4, 1, 5, 9, 2, 6, 5, 3, 5] = .error .out_of_range) ∧
    order_invariant [9, 6, 5, 5, 5, 4, 3, 3, 2, 1, 1] = true ∧
    (∀ fuel : Nat,
      pop_beap (fuel + 1) (from_range [9, 6, 5, 5, 5, 4, 3, 3, 2, 1, 1]) =
        .error .out_of_range) := by
  refine ⟨?_, by decide, ?_⟩ <;> intro fuel <;> rfl

/-- Claim C5 (erase of a stored value removes one occurrence of it), evaluated on the
claim's witness: `erase (33)` on the beap of S1 removes the element 2 at index 22; the size
becomes 23, but 33 is still stored and 2 is lost. -/
theorem erase_S1_33_removes_other_element :
    (∀ fuel : Nat, erase (fuel + 1) (from_range S1) 33 =
      .ok ⟨[72, 68, 63, 44, 62, 55, 33, 22, 32, 51, 13, 18, 21, 19, 31, 11, 12, 14, 17, 9,
            13, 3, 10], ⟨21, 27⟩⟩) ∧
    (33 : Int) ∈ [72, 68, 63, 44, 62, 55, 33, 22, 32, 51, 13, 18, 21, 19, 31, 11, 12, 14,
            17, 9, 13, 3, 10] ∧
    (2 : Int) ∈ S1 ∧
    (2 : Int) ∉ [72, 68, 63, 44, 62, 55, 33, 22, 32, 51, 13, 18, 21, 19, 31, 11, 12, 14,
            17, 9, 13, 3, 10] := by
  refine ⟨?_, by decide, by decide, by decide⟩
  intro fuel
  rfl

/-- Claim C6 (erase of an absent value is a no-op), evaluated on the claim's witness:
`erase (999)` on the beap of S1 removes the element 2 at index 22 and moves the last
element 10 into its slot; size and contents change. -/
theorem erase_S1_999_changes_buffer :
    (999 : Int) ∉ S1 ∧
    (∀ fuel : Nat, ∃ b : beap, erase (fuel + 1) (from_range S1) 999 = .ok b ∧
      b.size = 23 ∧ b.data ≠ S1 ∧ b.data[22]? = some 10 ∧ (2 : Int) ∉ b.data) := by
  refine ⟨by decide, ?_⟩
  intro fuel
  refine ⟨⟨[72, 68, 63, 44, 62, 55, 33, 22, 32, 51, 13, 18, 21, 19, 31, 11, 12, 14, 17, 9,
            13, 3, 10], ⟨21, 27⟩⟩, rfl, by decide, by decide, by decide, by decide⟩

/-- Claim C7 (insert returns the index at which the value resides), evaluated on the beap
constructed from `[2, 1]`: its size equals `end_span.end = 2`, so `insert` advances the
span to `{ 3, 5 }` and `bubble_up (2, 2)` reads `refof (-1)`; no index is returned. -/
theorem insert_two_element_beap_faults (fuel : Nat) (v : Int) :
    order_invariant [2, 1] = true ∧ (from_range [2, 1]).end_span = ⟨1, 2⟩ ∧
    insert (fuel + 1) (from_range [2, 1]) v = .error .out_of_range := by
  refine ⟨by decide, by decide, ?_⟩
  rfl

/-- Claim C8 (insert adds exactly the value to the stored multiset), evaluated on the two
empty beaps: on the default-constructed beap (`end_span = { 0, 0 }`) `insert` advances the
span to `{ 1, 2 }` and `bubble_up (0, 1)` reads `refof (-2)`; on the beap constructed from
the empty sequence (`end_span = { 0, -1 }`) `bubble_up (0, -1)` reads `refof (1)` in a
buffer of size 1.  In neither case does a beap with the value added result. -/
theorem insert_into_empty_beap_faults (fuel : Nat) (v : Int) :
    beap.empty.end_span = ⟨0, 0⟩ ∧
    insert (fuel + 1) beap.empty v = .error .out_of_range ∧
    (from_range []).end_span = ⟨0, -1⟩ ∧
    insert (fuel + 1) (from_range []) v = .error .out_of_range := by
  refine ⟨rfl, ?_, by decide, ?_⟩ <;> rfl

/-- Claim C9 (insert then erase restores the multiset), evaluated on the claim's witness:
after `insert (54)` and `erase (54)` on the beap of S1 the size is 24 again, but 54 is
still stored and the element 2 is lost. -/
theorem insert_erase_S1_54_changes_multiset :
    (∀ fuel : Nat, ∃ b1 b2 : beap, ∃ r : Int,
      insert (fuel + 1) (from_range S1) 54 = .ok (b1, r) ∧
      erase (fuel + 1) b1 54 = .ok b2 ∧
      b2.data = [72, 68, 63, 44, 62, 55, 33, 22, 32, 51, 13, 18, 21, 19, 31, 11, 12, 14, 17,
                 9, 13, 3, 54, 10] ∧
      b2.size = 24 ∧ (54 : Int) ∈ b2.data ∧ (2 : Int) ∉ b2.data) ∧
    (54 : Int) ∉ S1 ∧ (2 : Int) ∈ S1 := by
  refine ⟨?_, by decide, by decide⟩
  intro fuel
  refine ⟨⟨S1 ++ [54], ⟨21, 27⟩⟩, ⟨[72, 68, 63, 44, 62, 55, 33, 22, 32, 51, 13, 18, 21, 19,
    31, 11, 12, 14, 17, 9, 13, 3, 54, 10], ⟨21, 27⟩⟩, 24, rfl, rfl, rfl, by decide,
    by decide, by decide⟩

/-- Claim C10 (the range constructor arranges the values as a max-beap), evaluated on the
sequence `[1, 2]`: the constructor copies the values in their order, so the order invariant
fails and `top ()` is 1, not the maximum 2; `make_baep`, which the constructor does not
call, stops at the assertion of `bubble_up` in its first round. -/
theorem from_range_keeps_input_order :
    (from_range [1, 2]).data = [1, 2] ∧
    order_invariant (from_range [1, 2]).data = false ∧
    top (from_range [1, 2]) = .ok 1 ∧
    (∀ fuel : Nat, make_baep (fuel + 1) (from_range [1, 2]) = .error .assertion) := by
  refine ⟨rfl, by decide, rfl, ?_⟩
  intro fuel
  rfl

/-! ## `search` always halts -/

/-- A failing read is never reported as an exhausted budget. -/
theorem refof_error (data : List Int) (i : Int) (e : Fault) (h : refof data i = .error e) :
    e = .out_of_range := by
  unfold refof at h
  by_cases hi : i < 0
  · simp [hi] at h
    exact h.symm
  · simp only [hi, if_false] at h
    cases hd : data[i.toNat]? with
    | none =>
      simp [hd] at h
      exact h.symm
    | some y => simp [hd] at h

/-- The loop of `search` halts within `search_budget` steps: with a result, or at a read
outside the buffer. -/
theorem search_loop_halts (data : List Int) (es : basic_span_type) (v : Int) :
    ∀ (fuel : Nat) (s : basic_span_type) (i h : Int),
      search_budget (data.length : Int) i h ≤ fuel →
      search_loop data es v fuel s i h ≠ .error .fuel := by
  intro fuel
  induction fuel with
  | zero =>
    intro s i h hb
    unfold search_budget at hb
    split_ifs at hb <;> omega
  | succ n ih =>
    intro s i h hb
    unfold search_loop
    cases hd : refof data i with
    | error e =>
      have := refof_error data i e hd
      subst this
      simp
    | ok d =>
      have hi := (refof_eq_ok_iff data i d).mp hd
      have hlt : i.toNat < data.length := by
        by_contra hc
        rw [List.getElem?_eq_none (not_lt.mp hc)] at hi
        exact absurd hi.2 (by simp)
      simp only [spaceship_less_eq_ite]
      by_cases hv : v = d
      · subst hv
        simp only [if_true]
        have h1 : ¬ ((1 : Int) = -1) := by decide
        simp only [h1, if_false]
        by_cases hend : i = s.end_
        · simp [hend]
        · simp only [hend, if_false]
          apply ih
          unfold search_budget at hb ⊢
          split_ifs at hb ⊢ <;> omega
      · simp [hv]

/-- Every call `search (v)` halts: with a step budget of at least
`search_budget (size, end_span.beg + 1, end_span.end - end_span.beg)` the result is a value
or a read outside the buffer, never an exhausted budget. -/
theorem search_halts (b : beap) (v : Int) (fuel : Nat)
    (hb : search_budget b.size (b.end_span.beg + 1) (b.end_span.end_ - b.end_span.beg)
      ≤ fuel) :
    search fuel b v ≠ .error .fuel := by
  unfold search
  exact search_loop_halts b.data b.end_span v fuel _ _ _ hb

/-- The halting bound of `search` on the beap of S1: a budget of 32 steps suffices. -/
theorem search_halts_witness :
    search_budget (from_range S1).size ((from_range S1).end_span.beg + 1)
        ((from_range S1).end_span.end_ - (from_range S1).end_span.beg) ≤ 32 ∧
    search 32 (from_range S1) 2 ≠ .error .fuel :=
  ⟨by decide, search_halts (from_range S1) 2 32 (by decide)⟩

/-! ## The claims on `is_beap`, `contains`, `erase_by_index`, `bottom` and the sentinel -/

/-- The beap constructed from one element has `end_span = { 0, 0 }`. -/
theorem from_range_singleton (a : Int) : from_range [a] = ⟨[a], ⟨0, 0⟩⟩ := by
  have h : basic_span_type.span (nth_triangular_root ((1 : Nat) : Int) - 1) = ⟨0, 0⟩ := by
    decide
  unfold from_range
  rw [List.length_singleton, h]

/-- The beap constructed from two elements has `end_span = { 1, 2 }`. -/
theorem from_range_pair (a c : Int) : from_range [a, c] = ⟨[a, c], ⟨1, 2⟩⟩ := by
  have h : basic_span_type.span (nth_triangular_root ((2 : Nat) : Int) - 1) = ⟨1, 2⟩ := by
    decide
  unfold from_range
  rw [show ([a, c] : List Int).length = 2 from rfl, h]

/-- Claim C11 (`is_beap` decides the order invariant), evaluated on the code: on `[1, 2]`
and on `[3, 2, 1, 5]` the inner loop stops as soon as one of its two running indices
leaves the sequence, the element at index 1 (or 3) is never compared with its parent, and
`is_beap` returns `true` although the order invariant fails; on `[5, 5, 5]` the test
`not Compare () (child, parent)` rejects an equal parent and child, and `is_beap` returns
`false` although the order invariant holds.  On the driver's 24 values it returns `true`. -/
theorem is_beap_differs_from_order_invariant :
    (∀ fuel : Nat, is_beap (fuel + 2) [1, 2] = .ok true) ∧
    order_invariant [1, 2] = false ∧
    (∀ fuel : Nat, is_beap_untill (fuel + 3) [3, 2, 1, 5] = .ok 4) ∧
    (∀ fuel : Nat, is_beap (fuel + 3) [3, 2, 1, 5] = .ok true) ∧
    order_invariant [3, 2, 1, 5] = false ∧
    (∀ fuel : Nat, is_beap_untill (fuel + 1) [5, 5, 5] = .ok 2) ∧
    (∀ fuel : Nat, is_beap (fuel + 1) [5, 5, 5] = .ok false) ∧
    order_invariant [5, 5, 5] = true ∧
    (∀ fuel : Nat, is_beap (fuel + 8) S1 = .ok true) ∧ order_invariant S1 = true := by
  refine ⟨?_, by decide, ?_, ?_, by decide, ?_, ?_, by decide, ?_, by decide⟩ <;>
    intro fuel <;> rfl

/-- Claim C12 (both `contains` overloads agree with `find` and with membership), evaluated
on the code.  On the beap constructed from `[3, 2, 1]`, `find (1)` returns the sentinel 2,
so `contains (value_type)` is `false` although 1 is stored, while `contains (ValueType)`,
which converts the returned index to `bool`, is `true`.  On the beap of S1 both overloads
return `true` for 100, which is not stored. -/
theorem contains_overloads_disagree :
    (1 : Int) ∈ (from_range [3, 2, 1]).data ∧ (from_range [3, 2, 1]).end_span.end_ = 2 ∧
    (∀ fuel : Nat, find (fuel + 1) (from_range [3, 2, 1]) 1 = .ok 2) ∧
    (∀ fuel : Nat, contains (fuel + 1) (from_range [3, 2, 1]) 1 = .ok false) ∧
    (∀ fuel : Nat, contains_ValueType (fuel + 1) (from_range [3, 2, 1]) 1 = .ok true) ∧
    (100 : Int) ∉ S1 ∧
    (∀ fuel : Nat, contains (fuel + 1) (from_range S1) 100 = .ok true) ∧
    (∀ fuel : Nat, contains_ValueType (fuel + 1) (from_range S1) 100 = .ok true) := by
  refine ⟨by decide, by decide, ?_, ?_, ?_, by decide, ?_, ?_⟩ <;> intro fuel <;> rfl

/-- Claim C13 (`erase_by_index` removes the element at every valid index), evaluated on
the code: on the beap of S1 (size 24) index 23, the last element, violates the assertion
`i_ != len - 1` of `erase_impl`; on the beap constructed from `[6, 5, 4, 3, 2, 1]`, whose
last row is full, index 5 equals `end_span.end` and the call returns without removing
anything; on the beap of S1 index 6 makes `bubble_up (6, 3)` read `refof (-1)`. -/
theorem erase_by_index_fails_on_valid_indices :
    (∀ fuel : Nat, erase_by_index fuel (from_range S1) 23 = .error .assertion) ∧
    (from_range [6, 5, 4, 3, 2, 1]).end_span = ⟨3, 5⟩ ∧
    refof (from_range [6, 5, 4, 3, 2, 1]).data 5 = .ok 1 ∧
    (∀ fuel : Nat, erase_by_index fuel (from_range [6, 5, 4, 3, 2, 1]) 5 =
      .ok (from_range [6, 5, 4, 3, 2, 1])) ∧
    (∀ fuel : Nat, erase_by_index (fuel + 2) (from_range S1) 6 = .error .out_of_range) := by
  refine ⟨?_, by decide, by decide, ?_, ?_⟩ <;> intro fuel <;> rfl

/-- Claim C14 (`bottom` returns the minimum, found in the last row), evaluated on the code:
the body of `bottom` ends without a `return` statement, so no call yields a value.  The
scan itself ends on the beap of S1 with `min = 21` (the value 3) although 2 is stored at
index 22, since `data[ i ] < data[ min ]` never holds; and on the beap constructed from
`[5, 4, 1, 3]`, which satisfies the order invariant, the last row is index 3 alone while
the minimum 1 is stored at index 2. -/
theorem bottom_returns_no_value :
    (∀ (fuel : Nat) (b : beap) (x : Int), bottom fuel b ≠ .ok x) ∧
    (∀ fuel : Nat, bottom_loop S1 (fuel + 3) 21 22 = .ok 21) ∧
    S1[21]? = some 3 ∧ S1[22]? = some 2 ∧
    order_invariant [5, 4, 1, 3] = true ∧ (from_range [5, 4, 1, 3]).end_span = ⟨3, 5⟩ ∧
    (∀ fuel : Nat, bottom_loop [5, 4, 1, 3] (fuel + 1) 3 4 = .ok 3) ∧
    ([5, 4, 1, 3] : List Int)[2]? = some 1 := by
  refine ⟨?_, ?_, by decide, by decide, by decide, by decide, ?_, by decide⟩
  · intro fuel b x h
    unfold bottom at h
    cases hl : bottom_loop b.data fuel b.end_span.beg (b.end_span.beg + 1) with
    | error e => simp [hl] at h
    | ok m => simp [hl] at h
  · intro fuel
    rfl
  · intro fuel
    rfl

/-- Claim C15 (the sentinel `end_span.end` is never the index of a stored element),
evaluated on the beap constructed from `[3, 2, 1]`: `end_span` is `{ 1, 2 }`, so the
sentinel 2 is below the size 3 and is the index of the stored 1; `find (1)` returns 2,
`contains (1)` is `false` and `erase (1)` leaves the beap unchanged. -/
theorem sentinel_is_a_stored_index :
    (from_range [3, 2, 1]).end_span = ⟨1, 2⟩ ∧ (from_range [3, 2, 1]).size = 3 ∧
    (from_range [3, 2, 1]).end_span.end_ < (from_range [3, 2, 1]).size ∧
    refof (from_range [3, 2, 1]).data (from_range [3, 2, 1]).end_span.end_ = .ok 1 ∧
    (∀ fuel : Nat, find (fuel + 1) (from_range [3, 2, 1]) 1 = .ok 2) ∧
    (∀ fuel : Nat, contains (fuel + 1) (from_range [3, 2, 1]) 1 = .ok false) ∧
    (∀ fuel : Nat, erase (fuel + 1) (from_range [3, 2, 1]) 1 = .ok (from_range [3, 2, 1])) := by
  refine ⟨by decide, by decide, by decide, by decide, ?_, ?_, ?_⟩ <;> intro fuel <;> rfl

/-- Claim C16 (`find` runs to completion and reads inside the buffer only), evaluated on
the code: on the default-constructed beap and on every one-element beap the first probe is
`data[ end_span.beg + 1 ] = data[ 1 ]`, outside the buffer; on the beap constructed from
two elements it is `data[ 2 ]`. -/
theorem find_reads_outside_small_beaps :
    (∀ (fuel : Nat) (v : Int), find (fuel + 1) beap.empty v = .error .out_of_range) ∧
    (∀ (fuel : Nat) (a v : Int), find (fuel + 1) (from_range [a]) v = .error .out_of_range) ∧
    (∀ (fuel : Nat) (a c v : Int),
      find (fuel + 1) (from_range [a, c]) v = .error .out_of_range) := by
  refine ⟨?_, ?_, ?_⟩
  · intro fuel v
    rfl
  · intro fuel a v
    rw [from_range_singleton]
    rfl
  · intro fuel a c v
    rw [from_range_pair]
    rfl

/-! ## The triangular index algebra -/

/-- The integer square root brackets its argument: `s * s ≤ v < (s + 1) * (s + 1)`. -/
theorem isqrt_bounds (v : Int) (hv : 0 ≤ v) :
    0 ≤ isqrt v ∧ isqrt v * isqrt v ≤ v ∧ v < (isqrt v + 1) * (isqrt v + 1) := by
  unfold isqrt
  obtain ⟨m, rfl⟩ := Int.eq_ofNat_of_zero_le hv
  simp only [Int.toNat_ofNat]
  have h1 : Nat.findGreatest (fun k => k * k ≤ m) m * Nat.findGreatest (fun k => k * k ≤ m) m
      ≤ m :=
    Nat.findGreatest_spec (P := fun k => k * k ≤ m) (Nat.zero_le m) (by simp)
  have h2 : m < (Nat.findGreatest (fun k => k * k ≤ m) m + 1) *
      (Nat.findGreatest (fun k => k * k ≤ m) m + 1) := by
    by_contra hc
    have hc1 := not_lt.mp hc
    have hle : Nat.findGreatest (fun k => k * k ≤ m) m + 1 ≤ m :=
      le_trans (Nat.le_mul_self _) hc1
    have := Nat.le_findGreatest (P := fun k => k * k ≤ m) hle hc1
    omega
  refine ⟨Int.natCast_nonneg _, ?_, ?_⟩
  · exact_mod_cast h1
  · exact_mod_cast h2

/-- Twice the triangular number: `2 * T (r) = (r + 1) * r`, for every integer `r`. -/
theorem two_mul_nth_triangular (r : Int) : 2 * nth_triangular r = (r + 1) * r := by
  have hev : (2 : Int) ∣ (r + 1) * r := by
    have := Int.even_mul_succ_self r
    rw [mul_comm]
    exact even_iff_two_dvd.mp this
  have himpl : nth_triangular_impl r = (r + 1) * r / 2 := by
    unfold nth_triangular_impl
    simp only [add_sub_cancel_right]
    exact Int.tdiv_eq_ediv_of_dvd hev
  have h2 : 2 * ((r + 1) * r / 2) = (r + 1) * r := Int.mul_ediv_cancel' hev
  unfold nth_triangular
  by_cases h0 : r = 0
  · simp [h0]
  · simp only [h0, if_false, ite_self, himpl, h2]

/-- The triangular number as a quotient: `T (r) = (r + 1) * r / 2`. -/
theorem nth_triangular_eq (r : Int) : nth_triangular r = (r + 1) * r / 2 := by
  have h := two_mul_nth_triangular r
  omega

/-- For `n ≥ 1` the triangular root is `(isqrt (8 * n) + 1) / 2`. -/
theorem nth_triangular_root_eq (n : Int) (hn : 1 ≤ n) :
    nth_triangular_root n = (isqrt (8 * n) + 1) / 2 := by
  have h0 : n ≠ 0 := by omega
  have hs := (isqrt_bounds (8 * n) (by omega)).1
  unfold nth_triangular_root nth_triangular_root_impl
  simp only [h0, if_false, ite_self]
  exact Int.tdiv_eq_ediv (by omega) (by omega)

/-- For `n ≥ 1` the triangular root `k` is positive and `T (k - 1) < n ≤ T (k)`, stated on
the doubled triangular numbers. -/
theorem nth_triangular_root_bounds (n : Int) (hn : 1 ≤ n) :
    1 ≤ nth_triangular_root n ∧
    nth_triangular_root n * (nth_triangular_root n - 1) < 2 * n ∧
    2 * n ≤ (nth_triangular_root n + 1) * nth_triangular_root n := by
  rw [nth_triangular_root_eq n hn]
  obtain ⟨hs0, hs1, hs2⟩ := isqrt_bounds (8 * n) (by omega)
  generalize isqrt (8 * n) = s at hs0 hs1 hs2
  have hs2' : 2 ≤ s := by
    by_contra hc
    have hle : s + 1 ≤ 2 := by omega
    have : (s + 1) * (s + 1) ≤ 2 * 2 := mul_self_le_mul_self (by omega) hle
    omega
  generalize hk : (s + 1) / 2 = k
  have hk1 : 2 * k ≤ s + 1 := by omega
  have hk2 : s + 1 ≤ 2 * k + 1 := by omega
  have hA : (s + 1) * (s + 1) ≤ (2 * k + 1) * (2 * k + 1) :=
    mul_self_le_mul_self (by omega) hk2
  have hB : (2 * k - 1) * (2 * k - 1) ≤ s * s :=
    mul_self_le_mul_self (by omega) (by omega)
  refine ⟨by omega, ?_, ?_⟩
  · nlinarith
  · nlinarith

/-- The doubled triangular numbers grow with the row: `(a + 1) * a ≤ (c + 1) * c` for
`0 ≤ a ≤ c`. -/
theorem succ_mul_self_mono (a c : Int) (ha : 0 ≤ a) (hac : a ≤ c) :
    (a + 1) * a ≤ (c + 1) * c := by
  nlinarith

/-- The triangular root undoes the triangular number (shared by the claims on the root). -/
theorem nth_triangular_root_nth_triangular (k : Int) (hk : 0 ≤ k) :
    nth_triangular_root (nth_triangular k) = k := by
  have h2 := two_mul_nth_triangular k
  by_cases hk0 : k = 0
  · subst hk0
    simp [nth_triangular, nth_triangular_root]
  · have hk1 : 1 ≤ k := by omega
    have ht : 1 ≤ nth_triangular k := by nlinarith
    obtain ⟨hK1, hKa, hKb⟩ := nth_triangular_root_bounds (nth_triangular k) ht
    generalize nth_triangular_root (nth_triangular k) = K at hK1 hKa hKb
    rw [h2] at hKa hKb
    by_contra hne
    rcases lt_or_gt_of_ne hne with hlt | hgt
    · have := succ_mul_self_mono K (k - 1) (by omega) (by omega)
      nlinarith
    · have := succ_mul_self_mono k (K - 1) hk (by omega)
      nlinarith

/-- The driver's check of `span` against its table: `span (i)` is `ref_span[ i ]` for the
rows `0 .. 63`. -/
theorem span_agrees_with_ref_span :
    ∀ i : Nat, i < 64 → ref_span[i]? = some (basic_span_type.span (i : Int)) := by
  decide

/-- In exact arithmetic: `T (root (n)) ≤ n < T (root (n) + 1)` and
`nth_triangular_floor (n) ≤ n` fail at `n = 2`: the root of 2 is 2 and `T (2) = 3`. -/
theorem nth_triangular_root_not_floor_at_two :
    nth_triangular_root 2 = 2 ∧ nth_triangular 2 = 3 ∧
    ¬ (nth_triangular (nth_triangular_root 2) ≤ 2 ∧
        2 < nth_triangular (nth_triangular_root 2 + 1)) ∧
    ¬ (nth_triangular_floor 2 ≤ 2 ∧ 2 < nth_triangular_ceil 2) := by
  decide

/-- In exact arithmetic: for every `n ≥ 1`, `nth_triangular_root (n)` is the smallest
`k ≥ 0` with `T (k) ≥ n`, that is `T (root (n) - 1) < n ≤ T (root (n))`, where `T` is
`nth_triangular`; `nth_triangular_root (0) = 0`; and `n < nth_triangular_ceil (n)`. -/
theorem nth_triangular_root_is_least (n : Int) (hn : 1 ≤ n) :
    nth_triangular_root 0 = 0 ∧
    nth_triangular (nth_triangular_root n - 1) < n ∧
    n ≤ nth_triangular (nth_triangular_root n) ∧
    (∀ k : Int, 0 ≤ k → n ≤ nth_triangular k → nth_triangular_root n ≤ k) ∧
    n < nth_triangular_ceil n := by
  obtain ⟨hK1, hKa, hKb⟩ := nth_triangular_root_bounds n hn
  have hT1 := two_mul_nth_triangular (nth_triangular_root n - 1)
  have hT2 := two_mul_nth_triangular (nth_triangular_root n)
  have hT3 := two_mul_nth_triangular (nth_triangular_root n + 1)
  unfold nth_triangular_ceil
  generalize nth_triangular_root n = K at *
  refine ⟨by decide, ?_, ?_, ?_, ?_⟩
  · nlinarith
  · nlinarith
  · intro k hk hle
    by_contra hc
    have hkK : k ≤ K - 1 := by omega
    have hmono := succ_mul_self_mono k (K - 1) hk hkK
    have hTk := two_mul_nth_triangular k
    nlinarith
  · nlinarith

/-- Claim C18: for every `k ≥ 0`, `nth_triangular_root (nth_triangular (k)) = k`, where
`nth_triangular (k) = k (k + 1) / 2`: the triangular root undoes the triangular number. -/
theorem nth_triangular_root_undoes_nth_triangular (k : Int) (hk : 0 ≤ k) :
    nth_triangular k = k * (k + 1) / 2 ∧ nth_triangular_root (nth_triangular k) = k := by
  refine ⟨?_, nth_triangular_root_nth_triangular k hk⟩
  rw [nth_triangular_eq, mul_comm]

/-- Claim C18 at `k = 6`: `T (6) = 21` and the root of 21 is 6. -/
theorem nth_triangular_root_undoes_nth_triangular_witness :
    (0 : Int) ≤ 6 ∧
    (nth_triangular 6 = 6 * (6 + 1) / 2 ∧ nth_triangular_root (nth_triangular 6) = 6) :=
  ⟨by decide, nth_triangular_root_undoes_nth_triangular 6 (by decide)⟩

/-- In exact arithmetic: for every `n ≥ 0`, `is_triangular (n)` is `true` if and only if
`n` is a triangular number, `n = k (k + 1) / 2` for some `k ≥ 0`. -/
theorem is_triangular_iff (n : Int) (hn : 0 ≤ n) :
    is_triangular n = true ↔ ∃ k : Int, 0 ≤ k ∧ n = k * (k + 1) / 2 := by
  unfold is_triangular
  rw [decide_eq_true_iff]
  constructor
  · intro h
    refine ⟨nth_triangular_root n, ?_, ?_⟩
    · by_cases h0 : n = 0
      · subst h0
        decide
      · exact le_trans (by decide) (nth_triangular_root_bounds n (by omega)).1
    · rw [mul_comm, ← nth_triangular_eq]
      exact h.symm
  · rintro ⟨k, hk, rfl⟩
    rw [mul_comm, ← nth_triangular_eq, nth_triangular_root_nth_triangular k hk]

/-- In exact arithmetic: for every row `k`, `span (k)` has `beg = k (k + 1) / 2` and
`end = beg + k`, the index of the last element of row `k`, which is `T (k + 1) - 1`; the
row covers the `k + 1` indices `beg .. end`. -/
theorem span_covers_row (k : Int) :
    (basic_span_type.span k).beg = k * (k + 1) / 2 ∧
    (basic_span_type.span k).end_ = (basic_span_type.span k).beg + k ∧
    (basic_span_type.span k).end_ = nth_triangular (k + 1) - 1 ∧
    (basic_span_type.span k).end_ - (basic_span_type.span k).beg + 1 = k + 1 := by
  have h1 := two_mul_nth_triangular k
  have h2 := two_mul_nth_triangular (k + 1)
  unfold basic_span_type.span
  simp only
  refine ⟨?_, by omega, ?_, by omega⟩
  · rw [nth_triangular_eq, mul_comm]
  · nlinarith

/-! ## The claims on the spans, `clear`, `swap`, the comparison and the first insert -/

/-- The triangular numbers grow with the row: `T (a) ≤ T (c)` for `0 ≤ a ≤ c`. -/
theorem nth_triangular_mono (a c : Int) (ha : 0 ≤ a) (hac : a ≤ c) :
    nth_triangular a ≤ nth_triangular c := by
  have h1 := two_mul_nth_triangular a
  have h2 := two_mul_nth_triangular c
  have h3 := succ_mul_self_mono a c ha hac
  omega

/-- The step of the triangular numbers: `T (k + 1) = T (k) + k + 1`. -/
theorem nth_triangular_succ (k : Int) : nth_triangular (k + 1) = nth_triangular k + k + 1 := by
  have h1 := two_mul_nth_triangular k
  have h2 := two_mul_nth_triangular (k + 1)
  have e : (k + 1 + 1) * (k + 1) = (k + 1) * k + 2 * k + 2 := by ring
  omega

/-- For `n ≥ 1` the row `root (n) - 1` is the row of the linear index `n - 1`. -/
theorem nth_triangular_root_row (n : Int) (hn : 1 ≤ n) :
    0 ≤ nth_triangular_root n - 1 ∧
    nth_triangular (nth_triangular_root n - 1) ≤ n - 1 ∧
    n - 1 < nth_triangular (nth_triangular_root n - 1 + 1) := by
  obtain ⟨hK1, hKa, hKb⟩ := nth_triangular_root_bounds n hn
  have hT1 := two_mul_nth_triangular (nth_triangular_root n - 1)
  have hT2 := two_mul_nth_triangular (nth_triangular_root n)
  rw [sub_add_cancel]
  generalize nth_triangular_root n = K at *
  have e1 : (K - 1 + 1) * (K - 1) = K * (K - 1) := by ring
  refine ⟨by omega, ?_, ?_⟩
  · omega
  · omega

/-- The row of a linear index is unique: `T (q) ≤ i < T (q + 1)` and
`T (r) ≤ i < T (r + 1)` with `q, r ≥ 0` give `q = r`. -/
theorem row_unique (i q r : Int) (hq : 0 ≤ q) (hr : 0 ≤ r)
    (hq1 : nth_triangular q ≤ i) (hq2 : i < nth_triangular (q + 1))
    (hr1 : nth_triangular r ≤ i) (hr2 : i < nth_triangular (r + 1)) : q = r := by
  by_contra hne
  rcases lt_or_gt_of_ne hne with hlt | hgt
  · have := nth_triangular_mono (q + 1) r (by omega) (by omega)
    omega
  · have := nth_triangular_mono (r + 1) q (by omega) (by omega)
    omega

/-- In exact arithmetic: for every `k`, `next (span (k)) = span (k + 1)` and
`prev (span (k)) = span (k - 1)`; `operator++` and `operator--` yield the same spans as
`next` and `prev`, on every span. -/
theorem span_next_prev (k : Int) :
    (basic_span_type.span k).next = basic_span_type.span (k + 1) ∧
    (basic_span_type.span k).prev = basic_span_type.span (k - 1) ∧
    (∀ s : basic_span_type, s.incr = s.next ∧ s.decr = s.prev) := by
  have h1 := nth_triangular_succ k
  have h2 := nth_triangular_succ (k - 1)
  rw [sub_add_cancel] at h2
  refine ⟨?_, ?_, fun s => ⟨rfl, rfl⟩⟩
  · unfold basic_span_type.next basic_span_type.span
    simp only [basic_span_type.mk.injEq]
    constructor <;> omega
  · unfold basic_span_type.prev basic_span_type.span
    simp only [basic_span_type.mk.injEq]
    constructor <;> omega

/-- Claim C22 (`clear` and `swap` keep the last-row span consistent with the buffer),
evaluated on the code: `clear` on the beap of S1 empties the buffer and leaves
`end_span = { 21, 27 }`, which is not the default-constructed beap; `swap` of the beap of
S1 with the beap constructed from `[3, 2, 1]` exchanges the buffers only, so the first
holds `[3, 2, 1]` under the span `{ 21, 27 }` and the second the 24 values under `{ 1, 2 }`. -/
theorem clear_and_swap_keep_old_span :
    beap.clear (from_range S1) = ⟨[], ⟨21, 27⟩⟩ ∧
    beap.clear (from_range S1) ≠ beap.empty ∧
    beap.swap (from_range S1) (from_range [3, 2, 1]) =
      (⟨[3, 2, 1], ⟨21, 27⟩⟩, ⟨S1, ⟨1, 2⟩⟩) ∧
    (beap.swap (from_range S1) (from_range [3, 2, 1])).1 ≠ from_range [3, 2, 1] ∧
    (beap.swap (from_range S1) (from_range [3, 2, 1])).2 ≠ from_range S1 := by
  decide

/-- In exact arithmetic: for every sequence of `n ≥ 1` values the range constructor sets
`end_span = span (r)`, where `r ≥ 0` is the unique row with `T (r) ≤ n - 1 < T (r + 1)`,
the row of the last element. -/
theorem from_range_span_is_row_of_last (xs : List Int) (hn : 1 ≤ xs.length) :
    ∃ r : Int, 0 ≤ r ∧ nth_triangular r ≤ (xs.length : Int) - 1 ∧
      (xs.length : Int) - 1 < nth_triangular (r + 1) ∧
      (from_range xs).end_span = basic_span_type.span r ∧
      ∀ q : Int, 0 ≤ q → nth_triangular q ≤ (xs.length : Int) - 1 →
        (xs.length : Int) - 1 < nth_triangular (q + 1) → q = r := by
  have hn1 : (1 : Int) ≤ (xs.length : Int) := by exact_mod_cast hn
  obtain ⟨h0, h1, h2⟩ := nth_triangular_root_row (xs.length : Int) hn1
  refine ⟨nth_triangular_root (xs.length : Int) - 1, h0, h1, h2, rfl, ?_⟩
  intro q hq hq1 hq2
  exact row_unique ((xs.length : Int) - 1) q _ hq h0 hq1 hq2 h1 h2

/-- Claim C24 (after inserts `end_span` is the row of the last element), evaluated on the
code.  On the beap constructed from `[3, 2, 1]`, whose last row `{ 1, 2 }` is full,
`insert (5)` lands on index 3, the first index past the row, and the span does not advance:
`end_span.end = 2` is below the last index 3.  On the beap constructed from
`[5, 4, 3, 2, 1]`, `insert (0)` lands on index 5, the last slot of the row `{ 3, 5 }`, and
the span advances to `{ 6, 9 }`: `end_span.beg = 6` is above the last index 5.  On the
default-constructed beap the first `insert` returns nothing. -/
theorem insert_leaves_span_off_the_last_row :
    (from_range [3, 2, 1]).end_span = ⟨1, 2⟩ ∧
    (∀ fuel : Nat, insert (fuel + 1) (from_range [3, 2, 1]) 5 =
      .ok (⟨[3, 2, 1, 5], ⟨1, 2⟩⟩, 3)) ∧
    (⟨[3, 2, 1, 5], ⟨1, 2⟩⟩ : beap).end_span.end_ < (⟨[3, 2, 1, 5], ⟨1, 2⟩⟩ : beap).size - 1 ∧
    (from_range [5, 4, 3, 2, 1]).end_span = ⟨3, 5⟩ ∧
    (∀ fuel : Nat, insert (fuel + 1) (from_range [5, 4, 3, 2, 1]) 0 =
      .ok (⟨[5, 4, 3, 2, 1, 0], ⟨6, 9⟩⟩, 5)) ∧
    (⟨[5, 4, 3, 2, 1, 0], ⟨6, 9⟩⟩ : beap).size - 1 <
      (⟨[5, 4, 3, 2, 1, 0], ⟨6, 9⟩⟩ : beap).end_span.beg ∧
    (∀ (fuel : Nat) (v : Int), ∀ r : beap × Int, insert fuel beap.empty v ≠ .ok r) := by
  refine ⟨by decide, ?_, by decide, by decide, ?_, by decide, ?_⟩
  · intro fuel
    rfl
  · intro fuel
    rfl
  · intro fuel v r h
    cases fuel with
    | zero => exact absurd h (by simp [beap.insert, emplace, emplace_impl, bubble_up,
        bubble_up_loop, beap.empty, size, basic_span_type.incr, bind, Except.bind])
    | succ n =>
      have e : insert (n + 1) beap.empty v = .error .out_of_range := rfl
      rw [e] at h
      exact absurd h (by simp)

/-- Claim C25 (`operator<=>` is a faithful three-valued comparison), evaluated on the code
with `std::less`: `1 <=> 2` is 0 and not -1, `2 <=> 1` is 0 and not +1, `1 <=> 1` is 1 and
not 0; for all operands the result is 1 when they are equal and 0 otherwise, never -1. -/
theorem spaceship_is_one_iff_equal :
    spaceship less 1 2 = 0 ∧ spaceship less 2 1 = 0 ∧ spaceship less 1 1 = 1 ∧
    (∀ a b : Int, spaceship less a b = if a = b then 1 else 0) ∧
    (∀ a b : Int, spaceship less a b ≠ -1) := by
  refine ⟨by decide, by decide, by decide, spaceship_less_eq_ite, ?_⟩
  intro a b
  rw [spaceship_less_eq_ite]
  by_cases h : a = b <;> simp [h]

/-- Claim C26 (every `insert` on a beap built by inserts from the default-constructed beap
reads inside the buffer), evaluated on the very first insert: the size 0 equals
`end_span.end`, so `emplace` advances the span to `{ 1, 2 }`; `bubble_up (0, 1)` takes the
previous span `{ 0, 0 }`, the column `d = -1` and the parents `l = -2`, `r = -1`, and its
first condition reads `refof (-2)`, before the buffer. -/
theorem first_insert_reads_before_buffer (fuel : Nat) (v : Int) :
    beap.empty.size = beap.empty.end_span.end_ ∧
    beap.empty.end_span.incr = ⟨1, 2⟩ ∧
    (⟨1, 2⟩ : basic_span_type).prev = ⟨0, 0⟩ ∧
    refof [v] (-2) = .error .out_of_range ∧
    up_left [v] 0 (-2) (-1) = .error .out_of_range ∧
    bubble_up (fuel + 1) [v] ⟨1, 2⟩ 0 1 = .error .out_of_range ∧
    emplace (fuel + 1) beap.empty v = .error .out_of_range := by
  refine ⟨by decide, by decide, by decide, rfl, rfl, rfl, rfl⟩

/-- In exact arithmetic: for every `n ≥ 1` the value
`nth_triangular_root (n) = (isqrt (8 n) + 1) / 2` is the smallest `k ≥ 0` with
`T (k) ≥ n`, that is `T (root (n) - 1) < n ≤ T (root (n))`; equivalently `root (n) - 1`
is the row containing the linear index `n - 1`; and `nth_triangular_root (0) = 0`. -/
theorem nth_triangular_root_rounds_up (n : Int) (hn : 1 ≤ n) :
    nth_triangular_root n = (isqrt (8 * n) + 1) / 2 ∧
    nth_triangular (nth_triangular_root n - 1) < n ∧
    n ≤ nth_triangular (nth_triangular_root n) ∧
    (∀ k : Int, 0 ≤ k → n ≤ nth_triangular k → nth_triangular_root n ≤ k) ∧
    (0 ≤ nth_triangular_root n - 1 ∧
      nth_triangular (nth_triangular_root n - 1) ≤ n - 1 ∧
      n - 1 < nth_triangular (nth_triangular_root n - 1 + 1)) ∧
    nth_triangular_root 0 = 0 := by
  have hrow := nth_triangular_root_row n hn
  obtain ⟨h0, h1, h2⟩ := hrow
  have h3 : nth_triangular (nth_triangular_root n - 1 + 1) =
      nth_triangular (nth_triangular_root n) := by rw [sub_add_cancel]
  refine ⟨nth_triangular_root_eq n hn, by omega, by omega, ?_, ⟨h0, h1, h2⟩, by decide⟩
  intro k hk hle
  by_contra hc
  have := nth_triangular_mono k (nth_triangular_root n - 1) hk (by omega)
  omega

/-! ## The index algebra in `int32_t` -/

/-- A value inside the `int32_t` range is stored unchanged. -/
theorem wrap_eq_self (x : Int) (h1 : -2147483648 ≤ x) (h2 : x < 2147483648) :
    tri32.wrap x = x := by
  unfold tri32.wrap
  omega

/-- Up to row 46340 the product `(k + 1) * k` fits `int32_t`. -/
theorem succ_mul_self_fits (k : Int) (hk0 : 0 ≤ k) (hk1 : k ≤ 46340) :
    0 ≤ (k + 1) * k ∧ (k + 1) * k ≤ 2147441940 := by
  have h1 := succ_mul_self_mono k 46340 hk0 hk1
  have h2 := succ_mul_self_mono 0 k (le_refl 0) hk0
  norm_num at h1 h2
  exact ⟨h2, h1⟩

/-- Up to row 46340 the `int32_t` triangular number is the exact one. -/
theorem nth_triangular32_eq (k : Int) (hk0 : 0 ≤ k) (hk1 : k ≤ 46340) :
    tri32.nth_triangular k = nth_triangular k := by
  obtain ⟨hp0, hp1⟩ := succ_mul_self_fits k hk0 hk1
  have e1 : tri32.wrap (k + 1) = k + 1 := wrap_eq_self _ (by omega) (by omega)
  have e2 : tri32.wrap k = k := wrap_eq_self _ (by omega) (by omega)
  have e3 : tri32.wrap ((k + 1) * k) = (k + 1) * k := wrap_eq_self _ (by omega) (by omega)
  have himpl : tri32.nth_triangular_impl k = nth_triangular_impl k := by
    unfold tri32.nth_triangular_impl nth_triangular_impl
    simp only [e1, e2, e3, add_sub_cancel_right]
  unfold tri32.nth_triangular nth_triangular
  rw [himpl]

/-- Below `2^28` the exact triangular root is at most 23170. -/
theorem nth_triangular_root_le (n : Int) (hn0 : 1 ≤ n) (hn1 : n < 268435456) :
    1 ≤ nth_triangular_root n ∧ nth_triangular_root n ≤ 23170 := by
  obtain ⟨hK1, hKa, _⟩ := nth_triangular_root_bounds n hn0
  refine ⟨hK1, ?_⟩
  by_contra hc
  have h := succ_mul_self_mono 23170 (nth_triangular_root n - 1) (by decide) (by omega)
  rw [sub_add_cancel] at h
  norm_num at h
  omega

/-- Below `2^28` the `int32_t` triangular root returns the exact one: `8 * n_` fits, the
argument of `isqrt` is positive. -/
theorem nth_triangular_root32_eq (n : Int) (hn0 : 0 ≤ n) (hn1 : n < 268435456) :
    tri32.nth_triangular_root n = .ok (nth_triangular_root n) := by
  by_cases h0 : n = 0
  · subst h0
    rfl
  · have e1 : tri32.wrap (8 * n) = 8 * n := wrap_eq_self _ (by omega) (by omega)
    obtain ⟨hs0, hs1, _⟩ := isqrt_bounds (8 * n) (by omega)
    have hs : isqrt (8 * n) ≤ 46340 := by
      by_contra hc
      have := mul_self_le_mul_self (a := (46341 : Int)) (b := isqrt (8 * n)) (by decide)
        (by omega)
      omega
    have e2 : tri32.wrap (isqrt (8 * n) + 1) = isqrt (8 * n) + 1 :=
      wrap_eq_self _ (by omega) (by omega)
    have hpos : 8 * n > 0 := by omega
    have himpl : tri32.nth_triangular_root_impl n = .ok (nth_triangular_root_impl n) := by
      unfold tri32.nth_triangular_root_impl tri32.isqrt nth_triangular_root_impl
      simp only [e1, hpos, if_true, e2]
    unfold tri32.nth_triangular_root nth_triangular_root
    simp only [h0, if_false, ite_self, himpl]

/-- Up to row 46340 the `int32_t` span is the exact one. -/
theorem span32_eq (k : Int) (hk0 : 0 ≤ k) (hk1 : k ≤ 46340) :
    tri32.span k = basic_span_type.span k := by
  obtain ⟨hp0, hp1⟩ := succ_mul_self_fits k hk0 hk1
  have hT := two_mul_nth_triangular k
  have e1 : tri32.wrap (k + nth_triangular k) = k + nth_triangular k :=
    wrap_eq_self _ (by omega) (by omega)
  unfold tri32.span basic_span_type.span
  simp only [nth_triangular32_eq k hk0 hk1, e1]

/-- The exact bounds of a span up to row 46340: `0 ≤ beg ≤ end ≤ 1073767310`. -/
theorem span_fits (k : Int) (hk0 : 0 ≤ k) (hk1 : k ≤ 46340) :
    0 ≤ (basic_span_type.span k).beg ∧
    (basic_span_type.span k).beg ≤ 1073720970 ∧
    (basic_span_type.span k).end_ = (basic_span_type.span k).beg + k := by
  obtain ⟨hp0, hp1⟩ := succ_mul_self_fits k hk0 hk1
  have hT := two_mul_nth_triangular k
  unfold basic_span_type.span
  simp only
  omega

/-- Up to row 46339 the `int32_t` `next` of a span is the exact one. -/
theorem next32_eq (k : Int) (hk0 : 0 ≤ k) (hk1 : k ≤ 46339) :
    tri32.next (basic_span_type.span k) = (basic_span_type.span k).next := by
  obtain ⟨hb0, hb1, he⟩ := span_fits k hk0 (by omega)
  obtain ⟨hc0, hc1, _⟩ := span_fits (k + 1) (by omega) (by omega)
  have hn := (span_next_prev k).1
  have hnb : (basic_span_type.span (k + 1)).beg = (basic_span_type.span k).end_ + 1 := by
    rw [← hn]
    rfl
  have e1 : tri32.wrap ((basic_span_type.span k).end_ + 1) = (basic_span_type.span k).end_ + 1 :=
    wrap_eq_self _ (by omega) (by omega)
  have e2 : tri32.wrap (2 * ((basic_span_type.span k).end_ + 1)) =
      2 * ((basic_span_type.span k).end_ + 1) := wrap_eq_self _ (by omega) (by omega)
  have e3 : tri32.wrap (2 * ((basic_span_type.span k).end_ + 1) - (basic_span_type.span k).beg) =
      2 * ((basic_span_type.span k).end_ + 1) - (basic_span_type.span k).beg :=
    wrap_eq_self _ (by omega) (by omega)
  unfold tri32.next basic_span_type.next
  simp only [e1, e2, e3]

/-- From row 1 to row 46340 the `int32_t` `prev` of a span is the exact one. -/
theorem prev32_eq (k : Int) (hk0 : 1 ≤ k) (hk1 : k ≤ 46340) :
    tri32.prev (basic_span_type.span k) = (basic_span_type.span k).prev := by
  obtain ⟨hb0, hb1, he⟩ := span_fits k (by omega) hk1
  obtain ⟨hc0, hc1, _⟩ := span_fits (k - 1) (by omega) (by omega)
  have hp := (span_next_prev k).2.1
  have hpb : (basic_span_type.span (k - 1)).beg =
      2 * (basic_span_type.span k).beg - (basic_span_type.span k).end_ := by
    rw [← hp]
    rfl
  have e1 : tri32.wrap (2 * (basic_span_type.span k).beg) = 2 * (basic_span_type.span k).beg :=
    wrap_eq_self _ (by omega) (by omega)
  have e2 : tri32.wrap (2 * (basic_span_type.span k).beg - (basic_span_type.span k).end_) =
      2 * (basic_span_type.span k).beg - (basic_span_type.span k).end_ :=
    wrap_eq_self _ (by omega) (by omega)
  have e3 : tri32.wrap ((basic_span_type.span k).beg - 1) = (basic_span_type.span k).beg - 1 :=
    wrap_eq_self _ (by omega) (by omega)
  unfold tri32.prev basic_span_type.prev
  simp only [e1, e2, e3]

/-- The driver's check of `span` against its table, in `int32_t`: `span (i)` is
`ref_span[ i ]` for the rows `0 .. 63`. -/
theorem span32_agrees_with_ref_span :
    ∀ i : Nat, i < 64 → ref_span[i]? = some (tri32.span (i : Int)) := by
  decide

/-! ## The claims on the index algebra, settled in `int32_t` -/

/-- Below `2^28` the `int32_t` root `K` and the `int32_t` triangular numbers around it are
the exact ones (shared by the claims on the root). -/
theorem nth_triangular_root32_exact (n : Int) (hn0 : 1 ≤ n) (hn1 : n < 268435456) :
    tri32.nth_triangular_root n = .ok (nth_triangular_root n) ∧
    tri32.nth_triangular (nth_triangular_root n - 1) = nth_triangular (nth_triangular_root n - 1) ∧
    tri32.nth_triangular (nth_triangular_root n) = nth_triangular (nth_triangular_root n) ∧
    tri32.wrap (nth_triangular_root n + 1) = nth_triangular_root n + 1 ∧
    tri32.nth_triangular (nth_triangular_root n + 1) =
      nth_triangular (nth_triangular_root n + 1) := by
  obtain ⟨hK1, hK2⟩ := nth_triangular_root_le n hn0 hn1
  exact ⟨nth_triangular_root32_eq n (by omega) hn1,
    nth_triangular32_eq _ (by omega) (by omega),
    nth_triangular32_eq _ (by omega) (by omega),
    wrap_eq_self _ (by omega) (by omega),
    nth_triangular32_eq _ (by omega) (by omega)⟩

/-- Claim C17 as stated (`T (root (n)) ≤ n < T (root (n) + 1)` for every `n ≥ 0`) fails at
`n = 2`, where the root is 2 and `T (2) = 3` (also `nth_triangular_floor (2) = 3`), and at
`n = 2^28`, where `8 * n_` leaves `int32_t` and `isqrt` stops at its assertion. -/
theorem nth_triangular_root32_not_floor :
    tri32.nth_triangular_root 2 = .ok 2 ∧ tri32.nth_triangular 2 = 3 ∧
    ¬ (tri32.nth_triangular 2 ≤ 2) ∧
    tri32.nth_triangular_floor 2 = .ok 3 ∧
    tri32.wrap (8 * 268435456) = -2147483648 ∧
    tri32.nth_triangular_root 268435456 = .error .assertion := by
  decide

/-- Claim C17, amended: for every `n` with `1 ≤ n < 2^28` (so that `8 * n_` fits
`int32_t`), `nth_triangular_root (n)` returns the smallest `k ≥ 0` with `T (k) ≥ n`, that
is `T (root (n) - 1) < n ≤ T (root (n))`, where `T (k) = k (k + 1) / 2` is
`nth_triangular`; `nth_triangular_root (0) = 0`; consequently `nth_triangular_ceil (n)`
returns a value above `n`. -/
theorem nth_triangular_root32_is_least (n : Int) (hn0 : 1 ≤ n) (hn1 : n < 268435456) :
    ∃ K c : Int, tri32.nth_triangular_root n = .ok K ∧
      tri32.nth_triangular (K - 1) < n ∧ n ≤ tri32.nth_triangular K ∧
      (∀ k : Int, 0 ≤ k → n ≤ k * (k + 1) / 2 → K ≤ k) ∧
      tri32.nth_triangular_ceil n = .ok c ∧ n < c ∧
      tri32.nth_triangular_root 0 = .ok 0 := by
  obtain ⟨e0, e1, e2, e3, e4⟩ := nth_triangular_root32_exact n hn0 hn1
  obtain ⟨_, h1, h2, h3, h4⟩ := nth_triangular_root_is_least n hn0
  refine ⟨nth_triangular_root n, nth_triangular (nth_triangular_root n + 1), e0, ?_, ?_, ?_,
    ?_, ?_, rfl⟩
  · rw [e1]
    exact h1
  · rw [e2]
    exact h2
  · intro k hk hle
    apply h3 k hk
    rw [nth_triangular_eq, mul_comm]
    exact hle
  · unfold tri32.nth_triangular_ceil
    simp only [e0, e3, e4]
  · exact h4

/-- Claim C17, amended, at `n = 2`. -/
theorem nth_triangular_root32_is_least_witness :
    (1 : Int) ≤ 2 ∧ (2 : Int) < 268435456 ∧
    ∃ K c : Int, tri32.nth_triangular_root 2 = .ok K ∧
      tri32.nth_triangular (K - 1) < 2 ∧ 2 ≤ tri32.nth_triangular K ∧
      (∀ k : Int, 0 ≤ k → 2 ≤ k * (k + 1) / 2 → K ≤ k) ∧
      tri32.nth_triangular_ceil 2 = .ok c ∧ 2 < c ∧
      tri32.nth_triangular_root 0 = .ok 0 :=
  ⟨by decide, by decide, nth_triangular_root32_is_least 2 (by decide) (by decide)⟩

/-- Claim C19 as stated (for every `n ≥ 0`) fails at `n = 268436035 = T (23170)`: `8 * n_`
leaves `int32_t`, it is stored as `-2147479016`, and `isqrt` stops at its assertion, so
`is_triangular` does not return `true` for this triangular number. -/
theorem is_triangular32_fails_at_T23170 :
    (268436035 : Int) = 23170 * (23170 + 1) / 2 ∧
    tri32.wrap (8 * 268436035) = -2147479016 ∧
    tri32.is_triangular 268436035 = .error .assertion ∧
    tri32.is_triangular 268436035 ≠ .ok true := by
  decide

/-- Claim C19, amended: for every `n` with `0 ≤ n < 2^28` (so that `8 * n_` fits
`int32_t`), `is_triangular (n)` returns `true` if and only if `n` is a triangular number,
`n = k (k + 1) / 2` for some `k ≥ 0`, and returns `false` otherwise. -/
theorem is_triangular32_iff (n : Int) (hn0 : 0 ≤ n) (hn1 : n < 268435456) :
    (tri32.is_triangular n = .ok true ∨ tri32.is_triangular n = .ok false) ∧
    (tri32.is_triangular n = .ok true ↔ ∃ k : Int, 0 ≤ k ∧ n = k * (k + 1) / 2) := by
  have hval : tri32.is_triangular n = .ok (is_triangular n) := by
    by_cases h0 : n = 0
    · subst h0
      rfl
    · obtain ⟨e0, _, e2, _, _⟩ := nth_triangular_root32_exact n (by omega) hn1
      unfold tri32.is_triangular is_triangular
      simp only [e0, e2]
  rw [hval]
  constructor
  · cases is_triangular n <;> simp
  · rw [← is_triangular_iff n hn0]
    constructor
    · intro h
      injection h
    · intro h
      rw [h]

/-- Claim C19, amended, at `n = 21`, a triangular number. -/
theorem is_triangular32_iff_witness :
    (0 : Int) ≤ 21 ∧ (21 : Int) < 268435456 ∧
    ((tri32.is_triangular 21 = .ok true ∨ tri32.is_triangular 21 = .ok false) ∧
      (tri32.is_triangular 21 = .ok true ↔ ∃ k : Int, 0 ≤ k ∧ (21 : Int) = k * (k + 1) / 2)) :=
  ⟨by decide, by decide, is_triangular32_iff 21 (by decide) (by decide)⟩

/-- Claim C20 as stated (for every `k ≥ 0`) fails at `k = 46341`: the product
`46342 * 46341 = 2147534622` leaves `int32_t` although `T (46341) = 1073767311` fits, and
`span (46341)` gets `beg = -1073716337`. -/
theorem span32_wrong_at_46341 :
    (46341 + 1 : Int) * 46341 = 2147534622 ∧ (2147483647 : Int) < 2147534622 ∧
    (46341 : Int) * (46341 + 1) / 2 = 1073767311 ∧
    tri32.span 46341 = ⟨-1073716337, -1073669996⟩ ∧
    (tri32.span 46341).beg ≠ 46341 * (46341 + 1) / 2 := by
  decide

/-- Claim C20, amended: for every row `k` with `0 ≤ k ≤ 46340` (so that `(k + 1) * k` fits
`int32_t`), `span (k)` has `beg = k (k + 1) / 2` and `end = beg + k`, the index of the last
element of row `k`, which is `(k + 1) (k + 2) / 2 - 1`; the row covers the `k + 1` indices
`beg .. end`. -/
theorem span32_covers_row (k : Int) (hk0 : 0 ≤ k) (hk1 : k ≤ 46340) :
    (tri32.span k).beg = k * (k + 1) / 2 ∧
    (tri32.span k).end_ = (tri32.span k).beg + k ∧
    (tri32.span k).end_ = (k + 1) * (k + 2) / 2 - 1 ∧
    (tri32.span k).end_ - (tri32.span k).beg + 1 = k + 1 := by
  rw [span32_eq k hk0 hk1]
  obtain ⟨h1, h2, h3, h4⟩ := span_covers_row k
  refine ⟨h1, h2, ?_, h4⟩
  rw [h3, nth_triangular_eq]
  have e : (k + 1 + 1) * (k + 1) = (k + 1) * (k + 2) := by ring
  rw [e]

/-- Claim C20, amended, at the last row of the range, `k = 46340`. -/
theorem span32_covers_row_witness :
    (0 : Int) ≤ 46340 ∧ (46340 : Int) ≤ 46340 ∧
    ((tri32.span 46340).beg = 46340 * (46340 + 1) / 2 ∧
      (tri32.span 46340).end_ = (tri32.span 46340).beg + 46340 ∧
      (tri32.span 46340).end_ = (46340 + 1) * (46340 + 2) / 2 - 1 ∧
      (tri32.span 46340).end_ - (tri32.span 46340).beg + 1 = 46340 + 1) :=
  ⟨by decide, by decide, span32_covers_row 46340 (by decide) (by decide)⟩

/-- Claim C21 as stated (for every `k ≥ 0`, resp. `k ≥ 1`) fails at `k = 46340` and
`k = 46341`: `next (span (46340))` computes `2 * tmp = 2147534622`, outside `int32_t`, and
`span (46341)` is computed wrongly, so `next (span (46340))` differs from `span (46341)`
and `prev (span (46341))` differs from `span (46340)`. -/
theorem span32_next_prev_fail_at_46340 :
    (2147483647 : Int) < 2 * ((tri32.span 46340).end_ + 1) ∧
    tri32.next (tri32.span 46340) ≠ tri32.span (46340 + 1) ∧
    tri32.prev (tri32.span 46341) ≠ tri32.span (46341 - 1) := by
  decide

/-- Claim C21, amended: for every `k` with `0 ≤ k ≤ 46339`,
`next (span (k)) = span (k + 1)`, and for every row `k + 1` with `1 ≤ k + 1 ≤ 46340`,
`prev (span (k + 1)) = span (k)`; `operator++` and `operator--` yield the same spans as
`next` and `prev`, on every span. -/
theorem span32_next_prev (k : Int) (hk0 : 0 ≤ k) (hk1 : k ≤ 46339) :
    tri32.next (tri32.span k) = tri32.span (k + 1) ∧
    tri32.prev (tri32.span (k + 1)) = tri32.span k ∧
    (∀ s : basic_span_type, tri32.incr s = tri32.next s ∧ tri32.decr s = tri32.prev s) := by
  have hn := (span_next_prev k).1
  have hp := (span_next_prev (k + 1)).2.1
  rw [add_sub_cancel_right] at hp
  refine ⟨?_, ?_, fun s => ⟨rfl, rfl⟩⟩
  · rw [span32_eq k hk0 (by omega), span32_eq (k + 1) (by omega) (by omega),
      next32_eq k hk0 hk1, hn]
  · rw [span32_eq k hk0 (by omega), span32_eq (k + 1) (by omega) (by omega),
      prev32_eq (k + 1) (by omega) (by omega), hp]

/-- Claim C21, amended, at `k = 46339`, the last row of the range. -/
theorem span32_next_prev_witness :
    (0 : Int) ≤ 46339 ∧ (46339 : Int) ≤ 46339 ∧
    (tri32.next (tri32.span 46339) = tri32.span (46339 + 1) ∧
      tri32.prev (tri32.span (46339 + 1)) = tri32.span 46339 ∧
      (∀ s : basic_span_type, tri32.incr s = tri32.next s ∧ tri32.decr s = tri32.prev s)) :=
  ⟨by decide, by decide, span32_next_prev 46339 (by decide) (by decide)⟩

/-- The range constructor with the `int32_t` index algebra, unfolded on a sequence whose
size is `n`. -/
theorem from_range32_unfold (xs : List Int) (n : Int) (hn : (xs.length : Int) = n) :
    from_range32 xs =
      (tri32.nth_triangular_root (tri32.wrap n)).map
        (fun k => { data := xs, end_span := tri32.span (tri32.wrap (k - 1)) }) := by
  subst hn
  rfl

/-- The range constructor on a sequence of `2^28` values: `8 * n_` leaves `int32_t` and
`isqrt` stops at its assertion. -/
theorem from_range32_of_length_2_pow_28 (xs : List Int)
    (h : (xs.length : Int) = 268435456) : from_range32 xs = .error .assertion := by
  have h1 : tri32.nth_triangular_root (tri32.wrap 268435456) = .error .assertion := by decide
  rw [from_range32_unfold xs _ h, h1]
  rfl

/-- The range constructor on a sequence of `2^29 + 1` values: `8 * n_` is stored as 8, the
root is 1 and `end_span` is `span (0)`. -/
theorem from_range32_of_length_2_pow_29_succ (xs : List Int)
    (h : (xs.length : Int) = 536870913) : from_range32 xs = .ok ⟨xs, ⟨0, 0⟩⟩ := by
  have h2 : tri32.nth_triangular_root (tri32.wrap 536870913) = .ok 1 := by decide
  have h3 : tri32.span (tri32.wrap (1 - 1)) = ⟨0, 0⟩ := by decide
  rw [from_range32_unfold xs _ h, h2]
  simp only [Except.map, h3]

/-- Claim C23 as stated (for every sequence of `n ≥ 1` values) fails for `n = 2^28` values,
where `8 * n_` leaves `int32_t` and `isqrt` stops at its assertion, and for `n = 2^29 + 1`
values, where `8 * n_` is stored as 8, the root is 1 and `end_span` becomes
`span (0) = { 0, 0 }` although the last element has index `2^29`. -/
theorem from_range32_fails_on_long_ranges :
    tri32.wrap (8 * 268435456) = -2147483648 ∧
    from_range32 (List.replicate 268435456 0) = .error .assertion ∧
    tri32.wrap (8 * 536870913) = 8 ∧
    from_range32 (List.replicate 536870913 0) =
      .ok ⟨List.replicate 536870913 0, ⟨0, 0⟩⟩ :=
  ⟨by decide,
    from_range32_of_length_2_pow_28 _ (by rw [List.length_replicate]; rfl),
    by decide,
    from_range32_of_length_2_pow_29_succ _ (by rw [List.length_replicate]; rfl)⟩

/-- Claim C23, amended: for every sequence of `n` values with `1 ≤ n < 2^28` (so that
`8 * n_` fits `int32_t`) the range constructor keeps the values and sets
`end_span = span (r)`, where `r ≥ 0` is the unique row with
`T (r) ≤ n - 1 < T (r + 1)`, `T (k) = k (k + 1) / 2`, the row of the last element. -/
theorem from_range32_span_is_row_of_last (xs : List Int) (hn0 : 1 ≤ xs.length)
    (hn1 : xs.length < 268435456) :
    ∃ r : Int, 0 ≤ r ∧ r * (r + 1) / 2 ≤ (xs.length : Int) - 1 ∧
      (xs.length : Int) - 1 < (r + 1) * (r + 2) / 2 ∧
      from_range32 xs = .ok ⟨xs, tri32.span r⟩ ∧
      from_range32 xs = .ok (from_range xs) ∧
      ∀ q : Int, 0 ≤ q → q * (q + 1) / 2 ≤ (xs.length : Int) - 1 →
        (xs.length : Int) - 1 < (q + 1) * (q + 2) / 2 → q = r := by
  have h0 : (1 : Int) ≤ (xs.length : Int) := by exact_mod_cast hn0
  have h1 : (xs.length : Int) < 268435456 := by exact_mod_cast hn1
  have hexact : from_range xs =
      ⟨xs, basic_span_type.span (nth_triangular_root (xs.length : Int) - 1)⟩ := rfl
  obtain ⟨n, hn⟩ : ∃ n : Int, (xs.length : Int) = n := ⟨_, rfl⟩
  rw [hn] at h0 h1 hexact
  rw [hn]
  obtain ⟨g0, g1, g2⟩ := nth_triangular_root_row n h0
  obtain ⟨hK1, hK2⟩ := nth_triangular_root_le n h0 h1
  have ew : tri32.wrap n = n := wrap_eq_self _ (by omega) (by omega)
  have er : tri32.wrap (nth_triangular_root n - 1) = nth_triangular_root n - 1 :=
    wrap_eq_self _ (by omega) (by omega)
  have hfr : from_range32 xs = .ok ⟨xs, tri32.span (nth_triangular_root n - 1)⟩ := by
    rw [from_range32_unfold xs n hn, ew, nth_triangular_root32_eq n (by omega) h1]
    simp only [Except.map, er]
  have es : tri32.span (nth_triangular_root n - 1) =
      basic_span_type.span (nth_triangular_root n - 1) := span32_eq _ g0 (by omega)
  have f1 : ∀ q : Int, nth_triangular q = q * (q + 1) / 2 := by
    intro q
    rw [nth_triangular_eq, mul_comm]
  have f2 : ∀ q : Int, nth_triangular (q + 1) = (q + 1) * (q + 2) / 2 := by
    intro q
    rw [nth_triangular_eq]
    have e : (q + 1 + 1) * (q + 1) = (q + 1) * (q + 2) := by ring
    rw [e]
  refine ⟨nth_triangular_root n - 1, g0, ?_, ?_, hfr, ?_, ?_⟩
  · rw [← f1]
    exact g1
  · rw [← f2]
    exact g2
  · rw [hfr, es, hexact]
  · intro q hq hq1 hq2
    rw [← f1] at hq1
    rw [← f2] at hq2
    exact row_unique (n - 1) q _ hq g0 hq1 hq2 g1 g2

/-- Claim C23, amended, on the 24 values of S1: the span is `{ 21, 27 }`, the row 6. -/
theorem from_range32_span_is_row_of_last_witness :
    1 ≤ S1.length ∧ S1.length < 268435456 ∧ from_range32 S1 = .ok ⟨S1, ⟨21, 27⟩⟩ ∧
    ∃ r : Int, 0 ≤ r ∧ r * (r + 1) / 2 ≤ (S1.length : Int) - 1 ∧
      (S1.length : Int) - 1 < (r + 1) * (r + 2) / 2 ∧
      from_range32 S1 = .ok ⟨S1, tri32.span r⟩ ∧
      from_range32 S1 = .ok (from_range S1) ∧
      ∀ q : Int, 0 ≤ q → q * (q + 1) / 2 ≤ (S1.length : Int) - 1 →
        (S1.length : Int) - 1 < (q + 1) * (q + 2) / 2 → q = r :=
  ⟨by decide, by decide, by decide,
    from_range32_span_is_row_of_last S1 (by decide) (by decide)⟩

/-- Claim C27 as stated (for every `n ≥ 1`) fails at `n = 2^28`, where `8 * n_` is stored as
`-2^31` and `isqrt` stops at its assertion, and at `n = 2^29 + 1`, where `8 * n_` is stored
as 8 and the root returned is 1, with `T (1) = 1` far below `n`. -/
theorem nth_triangular_root32_fails_from_2_pow_28 :
    tri32.wrap (8 * 268435456) = -2147483648 ∧
    tri32.nth_triangular_root 268435456 = .error .assertion ∧
    tri32.wrap (8 * 536870913) = 8 ∧
    tri32.nth_triangular_root 536870913 = .ok 1 ∧
    tri32.nth_triangular 1 = 1 ∧ ¬ ((536870913 : Int) ≤ tri32.nth_triangular 1) := by
  decide

/-- Claim C27, amended: with `isqrt` the exact integer square root, for every `n` with
`1 ≤ n < 2^28` (so that `8 * n_` fits `int32_t`) the value returned by
`nth_triangular_root (n)` is `(isqrt (8 n) + 1) / 2`, the smallest `k ≥ 0` with
`T (k) ≥ n`, that is `T (root (n) - 1) < n ≤ T (root (n))`, `T (k) = k (k + 1) / 2`;
equivalently `root (n) - 1` is the row containing the linear index `n - 1`; and
`nth_triangular_root (0)` returns 0. -/
theorem nth_triangular_root32_rounds_up (n : Int) (hn0 : 1 ≤ n) (hn1 : n < 268435456) :
    ∃ K : Int, tri32.nth_triangular_root n = .ok K ∧
      tri32.isqrt (tri32.wrap (8 * n)) = .ok (isqrt (8 * n)) ∧
      K = (isqrt (8 * n) + 1) / 2 ∧
      tri32.nth_triangular (K - 1) < n ∧ n ≤ tri32.nth_triangular K ∧
      (∀ k : Int, 0 ≤ k → n ≤ k * (k + 1) / 2 → K ≤ k) ∧
      (0 ≤ K - 1 ∧ tri32.nth_triangular (K - 1) ≤ n - 1 ∧
        n - 1 < tri32.nth_triangular (K - 1 + 1)) ∧
      tri32.nth_triangular_root 0 = .ok 0 := by
  obtain ⟨e0, e1, e2, _, _⟩ := nth_triangular_root32_exact n hn0 hn1
  obtain ⟨g0, g1, g2, g3, ⟨g4, g5, g6⟩, _⟩ := nth_triangular_root_rounds_up n hn0
  have ew : tri32.wrap (8 * n) = 8 * n := wrap_eq_self _ (by omega) (by omega)
  have hpos : 8 * n > 0 := by omega
  refine ⟨nth_triangular_root n, e0, ?_, g0, ?_, ?_, ?_, ⟨g4, ?_, ?_⟩, rfl⟩
  · unfold tri32.isqrt
    simp only [ew, hpos, if_true]
  · rw [e1]
    exact g1
  · rw [e2]
    exact g2
  · intro k hk hle
    apply g3 k hk
    rw [nth_triangular_eq, mul_comm]
    exact hle
  · rw [e1]
    exact g5
  · rw [sub_add_cancel, e2]
    rw [sub_add_cancel] at g6
    exact g6

/-- Claim C27, amended, at `n = 24`: the root is 7, and row 6 contains the linear index 23. -/
theorem nth_triangular_root32_rounds_up_witness :
    (1 : Int) ≤ 24 ∧ (24 : Int) < 268435456 ∧ tri32.nth_triangular_root 24 = .ok 7 ∧
    ∃ K : Int, tri32.nth_triangular_root 24 = .ok K ∧
      tri32.isqrt (tri32.wrap (8 * 24)) = .ok (isqrt (8 * 24)) ∧
      K = (isqrt (8 * 24) + 1) / 2 ∧
      tri32.nth_triangular (K - 1) < 24 ∧ 24 ≤ tri32.nth_triangular K ∧
      (∀ k : Int, 0 ≤ k → 24 ≤ k * (k + 1) / 2 → K ≤ k) ∧
      (0 ≤ K - 1 ∧ tri32.nth_triangular (K - 1) ≤ 24 - 1 ∧
        24 - 1 < tri32.nth_triangular (K - 1 + 1)) ∧
      tri32.nth_triangular_root 0 = .ok 0 :=
  ⟨by decide, by decide, by decide,
    nth_triangular_root32_rounds_up 24 (by decide) (by decide)⟩

/-- In `int32_t`, for every `k` with `0 ≤ k ≤ 23169` (so that `8 * T (k)` fits), the
triangular root of the triangular number `T (k)` is returned and is `k`. -/
theorem nth_triangular_root32_nth_triangular32 (k : Int) (hk0 : 0 ≤ k) (hk1 : k ≤ 23169) :
    tri32.nth_triangular_root (tri32.nth_triangular k) = .ok k := by
  have h2 := two_mul_nth_triangular k
  have hm := succ_mul_self_mono k 23169 hk0 hk1
  have h0 := succ_mul_self_mono 0 k (le_refl 0) hk0
  norm_num at hm h0
  rw [nth_triangular32_eq k hk0 (by omega),
    nth_triangular_root32_eq _ (by omega) (by omega),
    nth_triangular_root_nth_triangular k hk0]
